import Mathlib

/-!
# Edgren–Nylinder stem taper model

A shallow embedding of `EdgrenNylinder.h` / `EdgrenNylinder.cpp`.

* C++ `double` is modelled by an arbitrary linearly ordered field `α` with a floor
  function (the theorems instantiate `α := ℝ`); NaN, infinities and rounding error are
  not modelled.
* The two transcendental `<math.h>` functions used by the program, `log10` and `pow`,
  are passed to every operation as a `Libm` record.  Theorems about the real-valued
  behaviour instantiate it with `Real.logb 10` and real exponentiation.
* `size_t` is the 32-bit unsigned type: `std::clamp(size_t, 1U, size_t)` in `form_class`
  only type-checks when `size_t` is `unsigned int`.  Converting a `double` whose truncated
  value is not representable in `size_t` is undefined behaviour and is modelled by `none`;
  the lookup, and with it the constructor, then has no result.
* Where C's `pow`, `log10` or a division would produce NaN or an infinity (negative base
  with a fractional exponent, non-positive argument of `log10`, division by zero) the
  real-valued model returns some real number instead; the embedding describes the program
  on the inputs where this does not happen.
* The `assert`s of `calculate_height_as_share_at_diameter` are compiled out (`NDEBUG`).
* Since rounding error is not modelled, a form quotient that lies exactly on the edge
  between two form classes (`0.575`, `0.625`, …) is classified by its exact bucket number,
  whereas the program's `double` quotient `(q - 0.475) / 0.05` can round to just below the
  edge and select the class below.  The agreement of the region equations at their
  boundaries is therefore stated through the table row a `Calculator` holds and through
  closed ranges of the form quotient, not through the form class of a boundary value.
-/

namespace skogrkaupa.forestry.edgren_nylinder

/-- The `<math.h>` functions `log10` and `pow` over the carrier `α`. -/
structure Libm (α : Type) where
  log10 : α → α
  pow : α → α → α

/-- The `<math.h>` function `trunc`: rounding towards zero (as an integer). -/
def trunc {α : Type} [LinearOrderedField α] [FloorRing α] (x : α) : ℤ :=
  if 0 ≤ x then Int.floor x else Int.ceil x

/-- The `<math.h>` function `round`: to the nearest integer, halfway cases away from zero. -/
def round {α : Type} [LinearOrderedField α] [FloorRing α] (x : α) : α :=
  if 0 ≤ x then ((Int.floor (x + 1 / 2) : ℤ) : α) else ((Int.ceil (x - 1 / 2) : ℤ) : α)

/-- The function `std::clamp(v, lo, hi)`: `(v < lo) ? lo : (hi < v) ? hi : v`. -/
def clamp {β : Type} [LinearOrder β] (v lo hi : β) : β :=
  if v < lo then lo else if hi < v then hi else v

/-- Number of values of `size_t` (32-bit). -/
def SIZE_T_RANGE : ℤ := 2 ^ 32

/-- The conversion `static_cast<size_t>` of an integral-valued `double`: defined only when
the value is representable. -/
def size_t_of_double (t : ℤ) : Option ℕ :=
  if 0 ≤ t ∧ t < SIZE_T_RANGE then some t.toNat else none

def NUMBER_OF_SPECIE_TYPES : ℕ := 4

inductive specie_type_t where
  | southern_pine
  | northern_pine
  | southern_spruce
  | northern_spruce
  deriving DecidableEq, Repr

/-- The conversion `static_cast<size_t>(specie)`. -/
def specie_type_t.toNat : specie_type_t → ℕ
  | .southern_pine => 0
  | .northern_pine => 1
  | .southern_spruce => 2
  | .northern_spruce => 3

structure stem_form_constants_t (α : Type) where
  beta : α
  gamma : α
  q : α
  Q : α
  R : α

def NUMBER_OF_FORM_CLASSES : ℕ := 7

/-- The stem-form table: 4 species × 7 form classes. -/
def stem_form_constants {α : Type} [LinearOrderedField α] : List (stem_form_constants_t α) :=
  [ -- southern pine
    ⟨0.620, 0.8409, 15.970, 285.280, 183.440⟩,
    ⟨0.620, 0.3694, 14.948, 285.280, 458.590⟩,
    ⟨1.594, 0.4251, 14.214, 147.440, 463.070⟩,
    ⟨3.240, 1.5290, 13.646, 98.601, 171.700⟩,
    ⟨6.320, 3.9740, 13.240, 71.915, 95.286⟩,
    ⟨13.070, 5.5100, 12.951, 54.050, 84.904⟩,
    ⟨33.502, 6.4450, 12.755, 39.982, 83.659⟩,
    -- northern pine
    ⟨0.620, 1.513, 14.233, 311.680, 123.910⟩,
    ⟨0.620, 1.228, 13.321, 311.680, 172.850⟩,
    ⟨1.594, 1.506, 12.657, 160.290, 167.680⟩,
    ⟨3.240, 2.493, 12.177, 106.670, 128.160⟩,
    ⟨6.320, 4.488, 11.880, 77.416, 94.947⟩,
    ⟨13.056, 6.602, 11.759, 57.767, 81.725⟩,
    ⟨32.307, 7.594, 11.753, 42.808, 80.776⟩,
    -- southern spruce
    ⟨0.620, 0.892, 15.765, 287.440, 174.400⟩,
    ⟨0.620, 0.923, 14.818, 287.440, 202.650⟩,
    ⟨1.594, 1.093, 14.032, 148.970, 202.510⟩,
    ⟨3.240, 2.164, 13.479, 99.532, 132.690⟩,
    ⟨6.320, 3.324, 13.040, 72.736, 108.430⟩,
    ⟨13.059, 4.463, 12.775, 54.618, 97.490⟩,
    ⟨33.208, 5.586, 12.578, 40.509, 91.770⟩,
    -- northern spruce
    ⟨0.620, 1.671, 16.104, 286.360, 103.060⟩,
    ⟨0.620, 1.422, 14.883, 286.360, 140.910⟩,
    ⟨1.594, 1.976, 13.784, 151.040, 127.890⟩,
    ⟨3.240, 2.906, 12.906, 102.700, 110.680⟩,
    ⟨6.320, 3.759, 12.099, 76.543, 105.150⟩,
    ⟨13.056, 4.026, 11.321, 59.096, 112.590⟩,
    ⟨32.012, 3.595, 10.540, 45.754, 134.760⟩ ]

/-- The function `form_class`:
`std::clamp(static_cast<size_t>(trunc((q - 0.475) / 0.05)), 1U, 7) - 1U`. -/
def form_class {α : Type} [LinearOrderedField α] [FloorRing α] (form_quotient : α) : Option ℕ :=
  (size_t_of_double (trunc ((form_quotient - 0.475) / 0.05))).map
    fun n => clamp n 1 NUMBER_OF_FORM_CLASSES - 1

/-- The form-class rule in the words of the specification (§4.4):
`class = clamp(floor((q − 0.475) / 0.05), 1, 7) − 1`. -/
def form_class_spec {α : Type} [LinearOrderedField α] [FloorRing α] (q : α) : ℤ :=
  clamp (Int.floor ((q - 0.475) / 0.05)) 1 7 - 1

/-- The function `safediv(t, d)`: `(d != 0.0) ? t / d : t`. -/
def safediv {α : Type} [LinearOrderedField α] (t d : α) : α :=
  if d ≠ 0 then t / d else t

/-- The state of a `Calculator` object: the four constructor arguments followed by the
derived members, in declaration order. -/
structure Calculator (α : Type) where
  specie_ : specie_type_t
  height_m_ : α
  diameter_under_bark_cm_ : α
  form_factor_ : α
  form_quotient_ : α
  k_ : stem_form_constants_t α
  quota_ : α
  inv_quota_ : α
  root_swell_height_ : α
  diameter_at_end_of_root_swell_ : α
  diameter_at_start_of_top_ : α

namespace Calculator

variable {α : Type} [LinearOrderedField α]

def ALFA : α := 10000

def INV_ALFA : α := 1 / 10000

def START_OF_TOP_AS_HEIGHT_SHARE : α := 0.6

/-- Rows `(a, b)` of the table local to `RootSwellHeightAsShare`. -/
def root_swell_constants : specie_type_t → α × α
  | .southern_pine => (0.06873, 0.8)
  | .northern_pine => (0.05270, 0.9)
  | .southern_spruce => (0.06731, 0.8)
  | .northern_spruce => (0.08631, 0.5)

/-- The static member function `Calculator::RootSwellHeightAsShare`. -/
def RootSwellHeightAsShare (m : Libm α) (specie : specie_type_t) (form_quotient : α) : α :=
  let k : α × α := root_swell_constants specie
  k.1 / m.pow (1 - form_quotient) k.2

/-- The static member function `Calculator::StemFormConstants`: the table row at `specie * 7 + form_class(q)`. -/
def StemFormConstants [FloorRing α] (specie : specie_type_t) (form_quotient : α) :
    Option (stem_form_constants_t α) :=
  (form_class form_quotient).bind fun c =>
    (stem_form_constants : List (stem_form_constants_t α))[specie.toNat * NUMBER_OF_FORM_CLASSES + c]?

/-- Rows `(a, b, c, d)` of the table local to `FormQuotient`. -/
def form_quotient_constants : specie_type_t → α × α × α × α
  | .southern_pine => (0.372, 0.008742, 0.003263, 0.4929)
  | .northern_pine => (0.293, 0.006690, 0.001384, 0.6348)
  | .southern_spruce => (0.209, 0.008590, 0.003157, 0.7385)
  | .northern_spruce => (0.239, 0.010460, 0.004407, 0.6532)

/-- The static member function `Calculator::FormQuotient`. -/
def FormQuotient (tradslag : specie_type_t) (form_factor height_m diameter_ub_cm : α) : α :=
  let k : α × α × α × α := form_quotient_constants tradslag
  k.1 + k.2.1 * height_m - (k.2.2.1 * diameter_ub_cm) + k.2.2.2 * form_factor

/-- The member function `Calculator::calculate_diameter_at_height_as_share`; `return {}`
is `0.0`. -/
def calculate_diameter_at_height_as_share (m : Libm α) (c : Calculator α)
    (height_as_share : α) : α :=
  if 0 ≤ height_as_share ∧ height_as_share ≤ 1 then
    if height_as_share ≥ START_OF_TOP_AS_HEIGHT_SHARE then
      (c.k_.R * m.log10 (1 + (1 - height_as_share) * c.k_.gamma)) * c.inv_quota_
    else if height_as_share ≥ c.root_swell_height_ then
      (c.k_.Q * m.log10 (1 + (1 - height_as_share) * c.k_.beta)) * c.inv_quota_
    else
      (100 - c.k_.q * m.log10 (1 + ALFA * height_as_share)) * c.inv_quota_
  else 0

/-- The member function `Calculator::calculate_diameter_at_height`. -/
def calculate_diameter_at_height (m : Libm α) (c : Calculator α) (height_m : α) : α :=
  c.calculate_diameter_at_height_as_share m (safediv height_m c.height_m_)

/-- The member function `Calculator::calculate_height_as_share_at_diameter` (assertions
compiled out). -/
def calculate_height_as_share_at_diameter (m : Libm α) (c : Calculator α)
    (diameter_cm : α) : α :=
  if diameter_cm ≤ c.diameter_at_start_of_top_ then
    if diameter_cm = c.diameter_at_start_of_top_ then START_OF_TOP_AS_HEIGHT_SHARE
    else
      clamp (1 - (m.pow 10 (diameter_cm * c.quota_ / c.k_.R) - 1) / c.k_.gamma)
        START_OF_TOP_AS_HEIGHT_SHARE 1
  else if diameter_cm ≤ c.diameter_at_end_of_root_swell_ then
    if diameter_cm = c.diameter_at_end_of_root_swell_ then c.root_swell_height_
    else
      clamp (1 - (m.pow 10 (diameter_cm * c.quota_ / c.k_.Q) - 1) / c.k_.beta)
        c.root_swell_height_ START_OF_TOP_AS_HEIGHT_SHARE
  else
    clamp ((m.pow 10 ((100 - diameter_cm * c.quota_) / c.k_.q) - 1) * INV_ALFA)
      0 c.root_swell_height_

/-- The member function `Calculator::calculate_height_at_diameter`. -/
def calculate_height_at_diameter (m : Libm α) (c : Calculator α) (diameter_cm : α) : α :=
  c.calculate_height_as_share_at_diameter m diameter_cm * c.height_m_

/-- The constructor `Calculator::Calculator` with the default member initialisers run in
declaration order.  The two boundary diameters are initialised by calling
`calculate_diameter_at_height_as_share` on the object under construction, which reads only
members initialised before them. -/
def create [FloorRing α] (m : Libm α) (specie : specie_type_t)
    (height_m diameter_under_bark_cm form_factor : α) : Option (Calculator α) :=
  let form_quotient := FormQuotient specie form_factor height_m diameter_under_bark_cm
  (StemFormConstants specie form_quotient).map fun k =>
    let quota := (100 - k.q * m.log10 (1 + ALFA * 1.3 / height_m)) / diameter_under_bark_cm
    let inv_quota := 1 / quota
    let root_swell_height := RootSwellHeightAsShare m specie form_quotient
    let c0 : Calculator α :=
      { specie_ := specie
        height_m_ := height_m
        diameter_under_bark_cm_ := diameter_under_bark_cm
        form_factor_ := form_factor
        form_quotient_ := form_quotient
        k_ := k
        quota_ := quota
        inv_quota_ := inv_quota
        root_swell_height_ := root_swell_height
        diameter_at_end_of_root_swell_ := 0
        diameter_at_start_of_top_ := 0 }
    let c1 : Calculator α :=
      { c0 with
        diameter_at_end_of_root_swell_ :=
          round (c0.calculate_diameter_at_height_as_share m root_swell_height) }
    { c1 with
      diameter_at_start_of_top_ :=
        round (c1.calculate_diameter_at_height_as_share m START_OF_TOP_AS_HEIGHT_SHARE) }

end Calculator

/-! ## Basic facts about the helper functions -/

theorem trunc_of_nonneg {α : Type} [LinearOrderedField α] [FloorRing α] {x : α} (hx : 0 ≤ x) :
    trunc x = Int.floor x := by
  unfold trunc
  rw [if_pos hx]

theorem trunc_eq_of_bucket {α : Type} [LinearOrderedField α] [FloorRing α] {x : α} (t : ℕ)
    (h1 : (t : α) ≤ x) (h2 : x < (t : α) + 1) : trunc x = (t : ℤ) := by
  have hx : 0 ≤ x := le_trans (Nat.cast_nonneg t) h1
  rw [trunc_of_nonneg hx, Int.floor_eq_iff]
  exact ⟨by exact_mod_cast h1, by exact_mod_cast h2⟩

theorem trunc_neg_of_le_neg_one {α : Type} [LinearOrderedField α] [FloorRing α] {x : α}
    (hx : x ≤ -1) : trunc x < 0 := by
  unfold trunc
  have hneg : ¬ (0 : α) ≤ x := by
    intro h0
    have : (0 : α) ≤ -1 := le_trans h0 hx
    norm_num at this
  rw [if_neg hneg]
  have h1 : Int.ceil x ≤ -1 := by
    rw [Int.ceil_le]
    exact_mod_cast hx
  omega

/-- When the scaled form quotient lies in bucket `t`, i.e. `t ≤ (q - 0.475) / 0.05 < t + 1`,
`form_class` returns `clamp(t, 1, 7) - 1`. -/
theorem form_class_of_bucket {α : Type} [LinearOrderedField α] [FloorRing α] (q : α) (t : ℕ)
    (h1 : (t : α) ≤ (q - 0.475) / 0.05) (h2 : (q - 0.475) / 0.05 < (t : α) + 1)
    (ht : t < 2 ^ 32) : form_class q = some (clamp t 1 NUMBER_OF_FORM_CLASSES - 1) := by
  unfold form_class size_t_of_double SIZE_T_RANGE
  rw [trunc_eq_of_bucket t h1 h2]
  have hlt : ((t : ℕ) : ℤ) < 2 ^ 32 := by exact_mod_cast ht
  rw [if_pos ⟨Int.natCast_nonneg t, hlt⟩]
  simp

/-- A form quotient whose truncated bucket number is negative makes the conversion to
`size_t` undefined. -/
theorem form_class_of_le_neg_one {α : Type} [LinearOrderedField α] [FloorRing α] (q : α)
    (h : (q - 0.475) / 0.05 ≤ -1) : (form_class q : Option ℕ) = none := by
  unfold form_class size_t_of_double
  have := trunc_neg_of_le_neg_one h
  rw [if_neg (by omega)]
  rfl

/-! ## Real logarithm and power: numeric bounds -/

/-- An upper bound `log10 x < p / n` follows from the integer comparison
`a ^ n < 10 ^ p * b ^ n`, where `x = a / b`. -/
theorem logb_lt_of_pow_lt (x : ℝ) (a b p n : ℕ) (hx : x = (a : ℝ) / (b : ℝ)) (ha : 0 < a)
    (hb : 0 < b) (hn : 0 < n) (h : a ^ n < 10 ^ p * b ^ n) :
    Real.logb 10 x < (p : ℝ) / n := by
  have hn0 : (0 : ℝ) < n := by exact_mod_cast hn
  have ha0 : (0 : ℝ) < a := by exact_mod_cast ha
  have hb0 : (0 : ℝ) < b := by exact_mod_cast hb
  have hx0 : 0 < x := by rw [hx]; exact div_pos ha0 hb0
  have hpow : x ^ n < 10 ^ p := by
    rw [hx, div_pow, div_lt_iff₀ (pow_pos hb0 n)]
    exact_mod_cast h
  have h1 : Real.logb 10 (x ^ n) < Real.logb 10 ((10 : ℝ) ^ p) :=
    Real.logb_lt_logb (by norm_num) (pow_pos hx0 n) hpow
  rw [Real.logb_pow, Real.logb_pow, Real.logb_self_eq_one (by norm_num), mul_one] at h1
  rw [lt_div_iff₀ hn0]
  linarith

/-- A lower bound `p / n < log10 x` follows from the integer comparison
`10 ^ p * b ^ n < a ^ n`, where `x = a / b`. -/
theorem lt_logb_of_lt_pow (x : ℝ) (a b p n : ℕ) (hx : x = (a : ℝ) / (b : ℝ)) (hb : 0 < b)
    (hn : 0 < n) (h : 10 ^ p * b ^ n < a ^ n) : (p : ℝ) / n < Real.logb 10 x := by
  have hn0 : (0 : ℝ) < n := by exact_mod_cast hn
  have hb0 : (0 : ℝ) < b := by exact_mod_cast hb
  have hpow : (10 : ℝ) ^ p < x ^ n := by
    rw [hx, div_pow, lt_div_iff₀ (pow_pos hb0 n)]
    exact_mod_cast h
  have h1 : Real.logb 10 ((10 : ℝ) ^ p) < Real.logb 10 (x ^ n) :=
    Real.logb_lt_logb (by norm_num) (by positivity) hpow
  rw [Real.logb_pow, Real.logb_pow, Real.logb_self_eq_one (by norm_num), mul_one] at h1
  rw [div_lt_iff₀ hn0]
  linarith

/-- A lower bound `y ≤ x ^ (m / n)` follows from `y ^ n ≤ x ^ m`. -/
theorem le_rpow_of_pow_le (x y e : ℝ) (m n : ℕ) (hx : 0 ≤ x) (hy : 0 ≤ y) (hn : 0 < n)
    (he : e = (m : ℝ) / (n : ℝ)) (h : y ^ n ≤ x ^ m) : y ≤ x ^ e := by
  have hn0 : (n : ℝ) ≠ 0 := by exact_mod_cast (ne_of_gt hn)
  have hnn : n ≠ 0 := ne_of_gt hn
  have h1 : (y ^ n) ^ ((n : ℝ)⁻¹) ≤ (x ^ m) ^ ((n : ℝ)⁻¹) :=
    Real.rpow_le_rpow (pow_nonneg hy n) h (inv_nonneg.mpr (Nat.cast_nonneg n))
  rw [Real.pow_rpow_inv_natCast hy hnn] at h1
  have h2 : (x ^ m) ^ ((n : ℝ)⁻¹) = x ^ e := by
    rw [← Real.rpow_natCast, ← Real.rpow_mul hx, he, div_eq_mul_inv]
  rw [h2] at h1
  exact h1

/-- An upper bound `x ^ (m / n) < y` follows from `x ^ m < y ^ n`. -/
theorem rpow_lt_of_pow_lt (x y e : ℝ) (m n : ℕ) (hx : 0 ≤ x) (hy : 0 ≤ y) (hn : 0 < n)
    (he : e = (m : ℝ) / (n : ℝ)) (h : x ^ m < y ^ n) : x ^ e < y := by
  have hn0 : (n : ℝ) ≠ 0 := by exact_mod_cast (ne_of_gt hn)
  have hnn : n ≠ 0 := ne_of_gt hn
  have hinv : (0 : ℝ) < (n : ℝ)⁻¹ := inv_pos.mpr (by exact_mod_cast hn)
  have h1 : (x ^ m) ^ ((n : ℝ)⁻¹) < (y ^ n) ^ ((n : ℝ)⁻¹) :=
    Real.rpow_lt_rpow (pow_nonneg hx m) h hinv
  rw [Real.pow_rpow_inv_natCast hy hnn] at h1
  have h2 : (x ^ m) ^ ((n : ℝ)⁻¹) = x ^ e := by
    rw [← Real.rpow_natCast, ← Real.rpow_mul hx, he, div_eq_mul_inv]
  rw [h2] at h1
  exact h1

theorem logb_651_lower : (2.8135 : ℝ) < Real.logb 10 651 := by
  have h := lt_logb_of_lt_pow 651 651 1 5627 2000 (by norm_num) (by norm_num)
    (by norm_num) (by decide!)
  norm_num at h ⊢
  linarith

theorem logb_651_upper : Real.logb 10 651 < (2.814 : ℝ) := by
  have h := logb_lt_of_pow_lt 651 651 1 1407 500 (by norm_num) (by norm_num)
    (by norm_num) (by norm_num) (by decide!)
  norm_num at h ⊢
  linarith

theorem logb_16116_lower : (0.207 : ℝ) < Real.logb 10 1.6116 := by
  have h := lt_logb_of_lt_pow 1.6116 16116 10000 207 1000 (by norm_num) (by norm_num)
    (by norm_num) (by decide!)
  norm_num at h ⊢
  linarith

theorem logb_16116_upper : Real.logb 10 1.6116 < (0.208 : ℝ) := by
  have h := logb_lt_of_pow_lt 1.6116 16116 10000 26 125 (by norm_num) (by norm_num)
    (by norm_num) (by norm_num) (by decide!)
  norm_num at h ⊢
  linarith

theorem logb_159631_lower : (0.202 : ℝ) < Real.logb 10 1.59631 := by
  have h := lt_logb_of_lt_pow 1.59631 159631 100000 101 500 (by norm_num) (by norm_num)
    (by norm_num) (by decide!)
  norm_num at h ⊢
  linarith

/-! ## The constructor -/

namespace Calculator

/-- What the constructor establishes about the members of the object it returns. -/
theorem create_spec {α : Type} [LinearOrderedField α] [FloorRing α] (m : Libm α)
    (sp : specie_type_t) (h d f : α) (c : Calculator α) (hc : create m sp h d f = some c) :
    c.specie_ = sp ∧ c.height_m_ = h ∧ c.diameter_under_bark_cm_ = d ∧ c.form_factor_ = f ∧
    c.form_quotient_ = FormQuotient sp f h d ∧
    StemFormConstants sp c.form_quotient_ = some c.k_ ∧
    c.quota_ = (100 - c.k_.q * m.log10 (1 + ALFA * 1.3 / h)) / d ∧
    c.inv_quota_ = 1 / c.quota_ ∧
    c.root_swell_height_ = RootSwellHeightAsShare m sp c.form_quotient_ ∧
    c.diameter_at_end_of_root_swell_ =
      round (c.calculate_diameter_at_height_as_share m c.root_swell_height_) ∧
    c.diameter_at_start_of_top_ =
      round (c.calculate_diameter_at_height_as_share m START_OF_TOP_AS_HEIGHT_SHARE) := by
  unfold create at hc
  simp only [Option.map_eq_some'] at hc
  obtain ⟨k, hk, rfl⟩ := hc
  exact ⟨rfl, rfl, rfl, rfl, rfl, hk, rfl, rfl, rfl, rfl, rfl⟩

/-- Construction succeeds exactly when the table lookup is defined. -/
theorem create_isSome_of_lookup {α : Type} [LinearOrderedField α] [FloorRing α] (m : Libm α)
    (sp : specie_type_t) (h d f : α) (k : stem_form_constants_t α)
    (hk : StemFormConstants sp (FormQuotient sp f h d) = some k) :
    ∃ c, create m sp h d f = some c := by
  unfold create
  simp only [Option.map_eq_some']
  exact ⟨_, k, hk, rfl⟩

/-- Southern pine, 20 m, 25 cm under bark, form factor 0.5: the constructed object. -/
theorem southern_pine_20_25 :
    ∃ c, create ⟨Real.logb 10, fun x y => x ^ y⟩ .southern_pine 20 25 0.5 = some c ∧
      c.height_m_ = 20 ∧
      c.k_ = ⟨3.240, 1.5290, 13.646, 98.601, 171.700⟩ ∧
      c.quota_ = (100 - 13.646 * Real.logb 10 651) / 25 ∧
      c.inv_quota_ = 1 / c.quota_ ∧
      c.root_swell_height_ = 0.06873 / (0.288285 : ℝ) ^ (0.8 : ℝ) ∧
      c.diameter_at_end_of_root_swell_ =
        round (c.calculate_diameter_at_height_as_share ⟨Real.logb 10, fun x y => x ^ y⟩
          c.root_swell_height_) ∧
      c.diameter_at_start_of_top_ =
        round (c.calculate_diameter_at_height_as_share ⟨Real.logb 10, fun x y => x ^ y⟩ 0.6) := by
  have hq : FormQuotient .southern_pine (0.5 : ℝ) 20 25 = 0.711715 := by
    unfold FormQuotient form_quotient_constants
    norm_num
  have hfc : form_class (0.711715 : ℝ) = some 3 :=
    form_class_of_bucket _ 4 (by norm_num) (by norm_num) (by norm_num)
  have hk : StemFormConstants .southern_pine (FormQuotient .southern_pine (0.5 : ℝ) 20 25) =
      some ⟨3.240, 1.5290, 13.646, 98.601, 171.700⟩ := by
    rw [hq]
    unfold StemFormConstants
    rw [hfc]
    rfl
  obtain ⟨c, hc⟩ := create_isSome_of_lookup ⟨Real.logb 10, fun x y => x ^ y⟩ .southern_pine
    (20 : ℝ) 25 0.5 _ hk
  obtain ⟨-, h2, -, -, h5, h6, h7, h8, h9, h10, h11⟩ := create_spec _ _ _ _ _ c hc
  rw [h5, hk] at h6
  have hkc : c.k_ = ⟨3.240, 1.5290, 13.646, 98.601, 171.700⟩ := (Option.some.inj h6).symm
  refine ⟨c, hc, h2, hkc, ?_, h8, ?_, h10, h11⟩
  · rw [h7, hkc]
    simp only [ALFA]
    norm_num
  · rw [h9, h5, hq]
    simp only [RootSwellHeightAsShare, root_swell_constants]
    norm_num

theorem logb_2603_div_3_upper : Real.logb 10 (2603 / 3) < (3 : ℝ) := by
  have h := logb_lt_of_pow_lt (2603 / 3) 2603 3 3 1 (by norm_num) (by norm_num)
    (by norm_num) (by norm_num) (by decide!)
  norm_num at h ⊢
  linarith

theorem logb_16684_upper : Real.logb 10 1.6684 < (0.23 : ℝ) := by
  have h := logb_lt_of_pow_lt 1.6684 16684 10000 23 100 (by norm_num) (by norm_num)
    (by norm_num) (by norm_num) (by decide!)
  norm_num at h ⊢
  linarith

theorem logb_1248_lower : (0.09 : ℝ) < Real.logb 10 1.248 := by
  have h := lt_logb_of_lt_pow 1.248 1248 1000 9 100 (by norm_num) (by norm_num)
    (by norm_num) (by decide!)
  norm_num at h ⊢
  linarith

theorem logb_1201_lower : (3.05 : ℝ) < Real.logb 10 1201 := by
  have h := lt_logb_of_lt_pow 1201 1201 1 61 20 (by norm_num) (by norm_num)
    (by norm_num) (by decide!)
  norm_num at h ⊢
  linarith

theorem logb_15394_lower : (0.18 : ℝ) < Real.logb 10 1.5394 := by
  have h := lt_logb_of_lt_pow 1.5394 15394 10000 9 50 (by norm_num) (by norm_num)
    (by norm_num) (by decide!)
  norm_num at h ⊢
  linarith

theorem rpow_half_bounds : (0.6640 : ℝ) < (0.483844 : ℝ) ^ (0.5 : ℝ) ∧
    (0.483844 : ℝ) ^ (0.5 : ℝ) < 0.7192 := by
  have e : (0.483844 : ℝ) ^ (0.5 : ℝ) = Real.sqrt 0.483844 := by
    rw [Real.sqrt_eq_rpow]
    norm_num
  rw [e]
  constructor
  · rw [Real.lt_sqrt (by norm_num)]
    norm_num
  · rw [Real.sqrt_lt' (by norm_num)]
    norm_num

/-- Northern spruce, 15 m, 32 cm under bark, form factor 0.4: the constructed object
(form quotient 0.516156, form class 0). -/
theorem northern_spruce_15_32 :
    ∃ c, create ⟨Real.logb 10, fun x y => x ^ y⟩ .northern_spruce 15 32 0.4 = some c ∧
      c.k_ = ⟨0.620, 1.671, 16.104, 286.360, 103.060⟩ ∧
      c.quota_ = (100 - 16.104 * Real.logb 10 (2603 / 3)) / 32 ∧
      c.inv_quota_ = 1 / c.quota_ ∧
      c.root_swell_height_ = 0.08631 / (0.483844 : ℝ) ^ (0.5 : ℝ) := by
  have hq : FormQuotient .northern_spruce (0.4 : ℝ) 15 32 = 0.516156 := by
    unfold FormQuotient form_quotient_constants
    norm_num
  have hfc : form_class (0.516156 : ℝ) = some 0 :=
    form_class_of_bucket _ 0 (by norm_num) (by norm_num) (by norm_num)
  have hk : StemFormConstants .northern_spruce (FormQuotient .northern_spruce (0.4 : ℝ) 15 32) =
      some ⟨0.620, 1.671, 16.104, 286.360, 103.060⟩ := by
    rw [hq]
    unfold StemFormConstants
    rw [hfc]
    rfl
  obtain ⟨c, hc⟩ := create_isSome_of_lookup ⟨Real.logb 10, fun x y => x ^ y⟩ .northern_spruce
    (15 : ℝ) 32 0.4 _ hk
  obtain ⟨-, -, -, -, h5, h6, h7, h8, h9, -, -⟩ := create_spec _ _ _ _ _ c hc
  rw [h5, hk] at h6
  have hkc : c.k_ = ⟨0.620, 1.671, 16.104, 286.360, 103.060⟩ := (Option.some.inj h6).symm
  refine ⟨c, hc, hkc, ?_, h8, ?_⟩
  · rw [h7, hkc]
    simp only [ALFA]
    norm_num
  · rw [h9, h5, hq]
    simp only [RootSwellHeightAsShare, root_swell_constants]
    norm_num

/-- The northern-spruce example has a positive scale factor and its root swell ends
between 12 % and 13 % of the height. -/
theorem northern_spruce_15_32_bounds (c : Calculator ℝ)
    (hq : c.quota_ = (100 - 16.104 * Real.logb 10 (2603 / 3)) / 32)
    (hi : c.inv_quota_ = 1 / c.quota_)
    (hr : c.root_swell_height_ = 0.08631 / (0.483844 : ℝ) ^ (0.5 : ℝ)) :
    0 < c.inv_quota_ ∧ 0.12 < c.root_swell_height_ ∧ c.root_swell_height_ < 0.13 := by
  have hL := logb_2603_div_3_upper
  obtain ⟨hlo, hhi⟩ := rpow_half_bounds
  have hquota : 0 < c.quota_ := by
    rw [hq]
    apply div_pos _ (by norm_num)
    linarith
  refine ⟨?_, ?_, ?_⟩
  · rw [hi]
    exact one_div_pos.mpr hquota
  · rw [hr, lt_div_iff₀ (by linarith)]
    linarith
  · rw [hr, div_lt_iff₀ (by linarith)]
    linarith

/-! ## Shared facts about the two queries -/

theorem clamp_bounds {β : Type} [LinearOrder β] (v lo hi : β) (h : lo ≤ hi) :
    lo ≤ clamp v lo hi ∧ clamp v lo hi ≤ hi := by
  unfold clamp
  split_ifs with h1 h2
  · exact ⟨le_refl _, h⟩
  · exact ⟨h, le_refl _⟩
  · exact ⟨not_lt.mp h1, not_lt.mp h2⟩

/-- Outside `[0, 1]` the forward query returns `0.0`. -/
theorem diameter_out_of_domain {α : Type} [LinearOrderedField α] (m : Libm α)
    (c : Calculator α) (s : α) (hs : s < 0 ∨ 1 < s) :
    c.calculate_diameter_at_height_as_share m s = 0 := by
  unfold calculate_diameter_at_height_as_share
  rw [if_neg]
  rintro ⟨h0, h1⟩
  rcases hs with h | h
  · exact absurd h0 (not_le.mpr h)
  · exact absurd h1 (not_le.mpr h)

/-- From 60 % of the height upwards the forward query uses the top equation. -/
theorem diameter_top {α : Type} [LinearOrderedField α] (m : Libm α) (c : Calculator α) (s : α)
    (h0 : 0 ≤ s) (h1 : s ≤ 1) (ht : 0.6 ≤ s) :
    c.calculate_diameter_at_height_as_share m s =
      (c.k_.R * m.log10 (1 + (1 - s) * c.k_.gamma)) * c.inv_quota_ := by
  unfold calculate_diameter_at_height_as_share START_OF_TOP_AS_HEIGHT_SHARE
  rw [if_pos ⟨h0, h1⟩, if_pos ht]

/-- Between the end of the root swell (inclusive) and 60 % of the height (exclusive) the
forward query uses the middle equation. -/
theorem diameter_middle {α : Type} [LinearOrderedField α] (m : Libm α) (c : Calculator α)
    (s : α) (h0 : 0 ≤ s) (h1 : s ≤ 1) (ht : s < 0.6) (hr : c.root_swell_height_ ≤ s) :
    c.calculate_diameter_at_height_as_share m s =
      (c.k_.Q * m.log10 (1 + (1 - s) * c.k_.beta)) * c.inv_quota_ := by
  unfold calculate_diameter_at_height_as_share START_OF_TOP_AS_HEIGHT_SHARE
  rw [if_pos ⟨h0, h1⟩, if_neg (not_le.mpr ht), if_pos hr]

/-- Below both the end of the root swell and 60 % of the height the forward query uses the
bottom equation. -/
theorem diameter_bottom {α : Type} [LinearOrderedField α] (m : Libm α) (c : Calculator α)
    (s : α) (h0 : 0 ≤ s) (h1 : s ≤ 1) (ht : s < 0.6) (hr : s < c.root_swell_height_) :
    c.calculate_diameter_at_height_as_share m s =
      (100 - c.k_.q * m.log10 (1 + 10000 * s)) * c.inv_quota_ := by
  unfold calculate_diameter_at_height_as_share START_OF_TOP_AS_HEIGHT_SHARE ALFA
  rw [if_pos ⟨h0, h1⟩, if_neg (not_le.mpr ht), if_neg (not_le.mpr hr)]

/-- With real `log10`, the forward query returns `0` at the tip `s = 1`. -/
theorem diameter_at_tip (c : Calculator ℝ) :
    c.calculate_diameter_at_height_as_share ⟨Real.logb 10, fun x y => x ^ y⟩ 1 = 0 := by
  rw [diameter_top _ c 1 (by norm_num) (by norm_num) (by norm_num)]
  simp

/-- The share returned by the inverse query lies in the share range of the region that the
diameter comparison selected. -/
theorem height_share_in_region {α : Type} [LinearOrderedField α] (m : Libm α)
    (c : Calculator α) (hr0 : 0 ≤ c.root_swell_height_) (hr1 : c.root_swell_height_ ≤ 0.6)
    (d : α) :
    (d ≤ c.diameter_at_start_of_top_ →
      0.6 ≤ c.calculate_height_as_share_at_diameter m d ∧
        c.calculate_height_as_share_at_diameter m d ≤ 1) ∧
    (c.diameter_at_start_of_top_ < d → d ≤ c.diameter_at_end_of_root_swell_ →
      c.root_swell_height_ ≤ c.calculate_height_as_share_at_diameter m d ∧
        c.calculate_height_as_share_at_diameter m d ≤ 0.6) ∧
    (c.diameter_at_start_of_top_ < d → c.diameter_at_end_of_root_swell_ < d →
      0 ≤ c.calculate_height_as_share_at_diameter m d ∧
        c.calculate_height_as_share_at_diameter m d ≤ c.root_swell_height_) := by
  have h06 : (0.6 : α) ≤ 1 := by norm_num
  refine ⟨?_, ?_, ?_⟩
  · intro h
    unfold calculate_height_as_share_at_diameter START_OF_TOP_AS_HEIGHT_SHARE
    rw [if_pos h]
    split_ifs
    · exact ⟨le_refl _, h06⟩
    · exact clamp_bounds _ _ _ h06
  · intro h1 h2
    unfold calculate_height_as_share_at_diameter START_OF_TOP_AS_HEIGHT_SHARE
    rw [if_neg (not_le.mpr h1), if_pos h2]
    split_ifs
    · exact ⟨le_refl _, hr1⟩
    · exact clamp_bounds _ _ _ hr1
  · intro h1 h2
    unfold calculate_height_as_share_at_diameter
    rw [if_neg (not_le.mpr h1), if_neg (not_le.mpr h2)]
    exact clamp_bounds _ _ _ hr0

/-- Bounds on the members of the southern-pine example. -/
theorem southern_pine_20_25_bounds (c : Calculator ℝ)
    (hq : c.quota_ = (100 - 13.646 * Real.logb 10 651) / 25)
    (hi : c.inv_quota_ = 1 / c.quota_)
    (hr : c.root_swell_height_ = 0.06873 / (0.288285 : ℝ) ^ (0.8 : ℝ)) :
    2.464 < c.quota_ ∧ c.quota_ < 2.4643 ∧ 0 < c.inv_quota_ ∧
      0 < c.root_swell_height_ ∧ c.root_swell_height_ < 0.24 := by
  have hlo := logb_651_lower
  have hhi := logb_651_upper
  have h1 : 2.464 < c.quota_ := by
    rw [hq, lt_div_iff₀ (by norm_num)]
    linarith
  have h2 : c.quota_ < 2.4643 := by
    rw [hq, div_lt_iff₀ (by norm_num)]
    linarith
  have hpow : (0.288285 : ℝ) ≤ (0.288285 : ℝ) ^ (0.8 : ℝ) := by
    have h : (0.288285 : ℝ) ^ (1 : ℝ) ≤ (0.288285 : ℝ) ^ (0.8 : ℝ) :=
      Real.rpow_le_rpow_of_exponent_ge (by norm_num) (by norm_num) (by norm_num)
    rwa [Real.rpow_one] at h
  refine ⟨h1, h2, ?_, ?_, ?_⟩
  · rw [hi]
    exact one_div_pos.mpr (by linarith)
  · rw [hr]
    exact div_pos (by norm_num) (by linarith)
  · rw [hr, div_lt_iff₀ (by linarith)]
    linarith

/-! ## C1 — region selection of the forward query -/

/-- C1 (as stated) fails: for the northern-spruce example the root swell ends below 60 % of
the height, yet at `s = 0.6` the forward query does not return the value of the middle
equation (it evaluates the top equation, which differs there). -/
theorem C1_counterexample :
    ∃ c, create ⟨Real.logb 10, fun x y => x ^ y⟩ .northern_spruce 15 32 0.4 = some c ∧
      c.root_swell_height_ < 0.6 ∧
      c.calculate_diameter_at_height_as_share ⟨Real.logb 10, fun x y => x ^ y⟩ 0.6 ≠
        (c.k_.Q * Real.logb 10 (1 + (1 - 0.6) * c.k_.beta)) * c.inv_quota_ := by
  obtain ⟨c, hc, hk, hq, hi, hr⟩ := northern_spruce_15_32
  obtain ⟨hinv, -, hr13⟩ := northern_spruce_15_32_bounds c hq hi hr
  refine ⟨c, hc, by linarith, ?_⟩
  rw [diameter_top _ c 0.6 (by norm_num) (by norm_num) (le_refl _), hk]
  have e1 : (1 + (1 - 0.6) * 1.671 : ℝ) = 1.6684 := by norm_num
  have e2 : (1 + (1 - 0.6) * 0.620 : ℝ) = 1.248 := by norm_num
  simp only [e1, e2]
  have hA := logb_16684_upper
  have hB := logb_1248_lower
  intro h
  have h3 : (103.060 : ℝ) * Real.logb 10 1.6684 = 286.360 * Real.logb 10 1.248 :=
    mul_right_cancel₀ (ne_of_gt hinv) h
  linarith

/-- C1 (amended): for every Calculator and every share `0 ≤ s ≤ 1`, the forward query
evaluates the top equation when `0.6 ≤ s`, the middle equation when
`root_swell_height ≤ s < 0.6`, and the bottom equation when `s < root_swell_height` and
`s < 0.6`; the boundaries `s = 0.6` and `s = root_swell_height` belong to the upper of the
two adjoining regions. -/
theorem C1_region_selection (m : Libm ℝ) (c : Calculator ℝ) (s : ℝ) (h0 : 0 ≤ s) (h1 : s ≤ 1) :
    (0.6 ≤ s → c.calculate_diameter_at_height_as_share m s =
      (c.k_.R * m.log10 (1 + (1 - s) * c.k_.gamma)) * c.inv_quota_) ∧
    (c.root_swell_height_ ≤ s → s < 0.6 → c.calculate_diameter_at_height_as_share m s =
      (c.k_.Q * m.log10 (1 + (1 - s) * c.k_.beta)) * c.inv_quota_) ∧
    (s < c.root_swell_height_ → s < 0.6 → c.calculate_diameter_at_height_as_share m s =
      (100 - c.k_.q * m.log10 (1 + 10000 * s)) * c.inv_quota_) :=
  ⟨fun ht => diameter_top m c s h0 h1 ht,
   fun hr ht => diameter_middle m c s h0 h1 ht hr,
   fun hr ht => diameter_bottom m c s h0 h1 ht hr⟩

/-- C1 witness: the amended statement at the southern-pine example and `s = 0.6`. -/
theorem C1_region_selection_witness :
    ∃ c, create ⟨Real.logb 10, fun x y => x ^ y⟩ .southern_pine 20 25 0.5 = some c ∧
      (0 : ℝ) ≤ 0.6 ∧ (0.6 : ℝ) ≤ 1 ∧
      ((0.6 : ℝ) ≤ 0.6 →
        c.calculate_diameter_at_height_as_share ⟨Real.logb 10, fun x y => x ^ y⟩ 0.6 =
          (c.k_.R * Real.logb 10 (1 + (1 - 0.6) * c.k_.gamma)) * c.inv_quota_) := by
  obtain ⟨c, hc, -⟩ := southern_pine_20_25
  exact ⟨c, hc, by norm_num, by norm_num,
    (C1_region_selection ⟨Real.logb 10, fun x y => x ^ y⟩ c 0.6 (by norm_num) (by norm_num)).1⟩

/-! ## C2 — the inverse query is clamped to the selected region -/

/-- C2: for every Calculator with `0 ≤ root_swell_height ≤ 0.6` and every diameter `d`, the
share returned by `calculate_height_as_share_at_diameter` lies in `[0.6, 1]` when
`d ≤ diameter_at_start_of_top`, in `[root_swell_height, 0.6]` when
`diameter_at_start_of_top < d ≤ diameter_at_end_of_root_swell`, and in
`[0, root_swell_height]` otherwise; hence `calculate_height_at_diameter d` lies in
`[0, height_m]` when `height_m ≥ 0`. -/
theorem C2_inverse_clamped_to_region (m : Libm ℝ) (c : Calculator ℝ)
    (hr0 : 0 ≤ c.root_swell_height_) (hr1 : c.root_swell_height_ ≤ 0.6) (d : ℝ) :
    (d ≤ c.diameter_at_start_of_top_ →
      0.6 ≤ c.calculate_height_as_share_at_diameter m d ∧
        c.calculate_height_as_share_at_diameter m d ≤ 1) ∧
    (c.diameter_at_start_of_top_ < d → d ≤ c.diameter_at_end_of_root_swell_ →
      c.root_swell_height_ ≤ c.calculate_height_as_share_at_diameter m d ∧
        c.calculate_height_as_share_at_diameter m d ≤ 0.6) ∧
    (c.diameter_at_start_of_top_ < d → c.diameter_at_end_of_root_swell_ < d →
      0 ≤ c.calculate_height_as_share_at_diameter m d ∧
        c.calculate_height_as_share_at_diameter m d ≤ c.root_swell_height_) ∧
    (0 ≤ c.height_m_ →
      0 ≤ c.calculate_height_at_diameter m d ∧
        c.calculate_height_at_diameter m d ≤ c.height_m_) := by
  obtain ⟨ha, hb, hc⟩ := height_share_in_region m c hr0 hr1 d
  refine ⟨ha, hb, hc, ?_⟩
  intro hh
  have hs : 0 ≤ c.calculate_height_as_share_at_diameter m d ∧
      c.calculate_height_as_share_at_diameter m d ≤ 1 := by
    rcases le_or_lt d c.diameter_at_start_of_top_ with h1 | h1
    · obtain ⟨h2, h3⟩ := ha h1
      exact ⟨by linarith, h3⟩
    · rcases le_or_lt d c.diameter_at_end_of_root_swell_ with h2 | h2
      · obtain ⟨h3, h4⟩ := hb h1 h2
        exact ⟨by linarith, by linarith⟩
      · obtain ⟨h3, h4⟩ := hc h1 h2
        exact ⟨h3, by linarith⟩
  unfold calculate_height_at_diameter
  constructor
  · exact mul_nonneg hs.1 hh
  · calc c.calculate_height_as_share_at_diameter m d * c.height_m_
        ≤ 1 * c.height_m_ := mul_le_mul_of_nonneg_right hs.2 hh
      _ = c.height_m_ := one_mul _

/-- C2 witness: the southern-pine example (root swell ends between 0 and 0.6) at
`d = 10` cm. -/
theorem C2_inverse_clamped_to_region_witness :
    ∃ c, create ⟨Real.logb 10, fun x y => x ^ y⟩ .southern_pine 20 25 0.5 = some c ∧
      0 ≤ c.root_swell_height_ ∧ c.root_swell_height_ ≤ 0.6 ∧
      ((0 : ℝ) ≤ c.height_m_ →
        0 ≤ c.calculate_height_at_diameter ⟨Real.logb 10, fun x y => x ^ y⟩ 10 ∧
          c.calculate_height_at_diameter ⟨Real.logb 10, fun x y => x ^ y⟩ 10 ≤ c.height_m_) := by
  obtain ⟨c, hc, -, -, hq, hi, hr, -, -⟩ := southern_pine_20_25
  obtain ⟨-, -, -, hr0, hr1⟩ := southern_pine_20_25_bounds c hq hi hr
  have hr2 : c.root_swell_height_ ≤ 0.6 := by linarith
  exact ⟨c, hc, le_of_lt hr0, hr2,
    (C2_inverse_clamped_to_region ⟨Real.logb 10, fun x y => x ^ y⟩ c (le_of_lt hr0)
      hr2 10).2.2.2⟩

/-! ## C3 — out-of-domain height shares -/

/-- C3 (as stated) fails: for the southern-pine example the out-of-domain share `s = 2`
returns the same value as the in-domain share `s' = 1`. -/
theorem C3_counterexample :
    ∃ c, create ⟨Real.logb 10, fun x y => x ^ y⟩ .southern_pine 20 25 0.5 = some c ∧
      (1 : ℝ) < 2 ∧ (0 : ℝ) ≤ 1 ∧ (1 : ℝ) ≤ 1 ∧
      c.calculate_diameter_at_height_as_share ⟨Real.logb 10, fun x y => x ^ y⟩ 2 =
        c.calculate_diameter_at_height_as_share ⟨Real.logb 10, fun x y => x ^ y⟩ 1 := by
  obtain ⟨c, hc, -⟩ := southern_pine_20_25
  refine ⟨c, hc, by norm_num, by norm_num, le_refl _, ?_⟩
  rw [diameter_out_of_domain _ c 2 (Or.inr (by norm_num)), diameter_at_tip c]

/-- C3 (amended): for every Calculator and every share `s` outside `[0, 1]`,
`calculate_diameter_at_height_as_share s` returns `0.0`; this value is not distinguished
from computed results, being also the value returned at the in-domain share `s' = 1`. -/
theorem C3_out_of_domain_returns_zero (c : Calculator ℝ) (s : ℝ) (hs : s < 0 ∨ 1 < s) :
    c.calculate_diameter_at_height_as_share ⟨Real.logb 10, fun x y => x ^ y⟩ s = 0 ∧
    c.calculate_diameter_at_height_as_share ⟨Real.logb 10, fun x y => x ^ y⟩ s =
      c.calculate_diameter_at_height_as_share ⟨Real.logb 10, fun x y => x ^ y⟩ 1 := by
  have h := diameter_out_of_domain ⟨Real.logb 10, fun x y => x ^ y⟩ c s hs
  exact ⟨h, by rw [h, diameter_at_tip c]⟩

/-- C3 witness: the amended statement at the southern-pine example and `s = -1`. -/
theorem C3_out_of_domain_returns_zero_witness :
    ∃ c, create ⟨Real.logb 10, fun x y => x ^ y⟩ .southern_pine 20 25 0.5 = some c ∧
      ((-1 : ℝ) < 0 ∨ (1 : ℝ) < -1) ∧
      c.calculate_diameter_at_height_as_share ⟨Real.logb 10, fun x y => x ^ y⟩ (-1) = 0 := by
  obtain ⟨c, hc, -⟩ := southern_pine_20_25
  exact ⟨c, hc, Or.inl (by norm_num),
    (C3_out_of_domain_returns_zero c (-1) (Or.inl (by norm_num))).1⟩

/-! ## C4 — query heights outside the stem -/

/-- C4 (as stated) fails: for the southern-pine example (height 20 m) the query height
`h = -1` does not return the diameter at height `0`. -/
theorem C4_counterexample :
    ∃ c, create ⟨Real.logb 10, fun x y => x ^ y⟩ .southern_pine 20 25 0.5 = some c ∧
      0 < c.height_m_ ∧ (-1 : ℝ) < 0 ∧
      c.calculate_diameter_at_height ⟨Real.logb 10, fun x y => x ^ y⟩ (-1) ≠
        c.calculate_diameter_at_height ⟨Real.logb 10, fun x y => x ^ y⟩ 0 := by
  obtain ⟨c, hc, hh, -, hq, hi, hr, -, -⟩ := southern_pine_20_25
  obtain ⟨-, -, hinv, hr0, -⟩ := southern_pine_20_25_bounds c hq hi hr
  refine ⟨c, hc, by rw [hh]; norm_num, by norm_num, ?_⟩
  unfold calculate_diameter_at_height safediv
  rw [hh, if_pos (by norm_num), if_pos (by norm_num)]
  rw [diameter_out_of_domain _ c _ (Or.inl (by norm_num))]
  have e0 : (0 : ℝ) / 20 = 0 := by norm_num
  rw [e0, diameter_bottom _ c 0 (le_refl _) (by norm_num) (by norm_num) hr0]
  simp only [mul_zero, add_zero, Real.logb_one, sub_zero]
  intro h
  have hpos : 0 < (100 : ℝ) * c.inv_quota_ := mul_pos (by norm_num) hinv
  linarith

/-- C4 (amended): for every Calculator with `height_m > 0` and every query height `h`
outside `[0, height_m]`, `calculate_diameter_at_height h` returns `0`, which is the tip
diameter `calculate_diameter_at_height height_m`, both for `h < 0` and for `h > height_m`
(the result is not clamped to the base diameter for `h < 0`). -/
theorem C4_out_of_range_height_returns_tip (c : Calculator ℝ) (hh : 0 < c.height_m_) (h : ℝ)
    (hout : h < 0 ∨ c.height_m_ < h) :
    c.calculate_diameter_at_height ⟨Real.logb 10, fun x y => x ^ y⟩ h = 0 ∧
    c.calculate_diameter_at_height ⟨Real.logb 10, fun x y => x ^ y⟩ h =
      c.calculate_diameter_at_height ⟨Real.logb 10, fun x y => x ^ y⟩ c.height_m_ := by
  have hne : c.height_m_ ≠ 0 := ne_of_gt hh
  have hshare : h / c.height_m_ < 0 ∨ 1 < h / c.height_m_ := by
    rcases hout with h1 | h1
    · exact Or.inl (div_neg_of_neg_of_pos h1 hh)
    · exact Or.inr ((one_lt_div hh).mpr h1)
  have h0 : c.calculate_diameter_at_height ⟨Real.logb 10, fun x y => x ^ y⟩ h = 0 := by
    unfold calculate_diameter_at_height safediv
    rw [if_pos hne]
    exact diameter_out_of_domain _ c _ hshare
  have htip : c.calculate_diameter_at_height ⟨Real.logb 10, fun x y => x ^ y⟩ c.height_m_ = 0 := by
    unfold calculate_diameter_at_height safediv
    rw [if_pos hne, div_self hne]
    exact diameter_at_tip c
  exact ⟨h0, by rw [h0, htip]⟩

/-- C4 witness: the amended statement at the southern-pine example and `h = -1`. -/
theorem C4_out_of_range_height_returns_tip_witness :
    ∃ c, create ⟨Real.logb 10, fun x y => x ^ y⟩ .southern_pine 20 25 0.5 = some c ∧
      0 < c.height_m_ ∧ ((-1 : ℝ) < 0 ∨ c.height_m_ < -1) ∧
      c.calculate_diameter_at_height ⟨Real.logb 10, fun x y => x ^ y⟩ (-1) = 0 := by
  obtain ⟨c, hc, hh, -⟩ := southern_pine_20_25
  have hpos : 0 < c.height_m_ := by rw [hh]; norm_num
  exact ⟨c, hc, hpos, Or.inl (by norm_num),
    (C4_out_of_range_height_returns_tip c hpos (-1) (Or.inl (by norm_num))).1⟩

/-! ## C5 — form-class bucketing of four sample quotients -/

/-- C6 (evaluation at the failing input): constructing a southern pine of height 2 m,
diameter 30 cm and form factor 0.05 yields the form quotient `0.316239`.  The floor-based
rule of the specification maps it to class `0`; in the code the truncated bucket number is
`-3`, which has no `size_t` value, so `form_class`, `StemFormConstants` (for any species)
and the constructor are all undefined there. -/
theorem C6_negative_bucket_not_clamped :
    FormQuotient .southern_pine (0.05 : ℝ) 2 30 = 0.316239 ∧
    form_class_spec (0.316239 : ℝ) = 0 ∧
    trunc (((0.316239 : ℝ) - 0.475) / 0.05) = -3 ∧
    form_class (0.316239 : ℝ) = none ∧
    (∀ sp : specie_type_t, StemFormConstants sp (0.316239 : ℝ) = none) ∧
    create ⟨Real.logb 10, fun x y => x ^ y⟩ .southern_pine 2 30 0.05 = none := by
  have hq : FormQuotient .southern_pine (0.05 : ℝ) 2 30 = 0.316239 := by
    unfold FormQuotient form_quotient_constants
    norm_num
  have hfloor : Int.floor (((0.316239 : ℝ) - 0.475) / 0.05) = -4 := by
    rw [Int.floor_eq_iff]
    norm_num
  have hceil : Int.ceil (((0.316239 : ℝ) - 0.475) / 0.05) = -3 := by
    rw [Int.ceil_eq_iff]
    norm_num
  have hnone : form_class (0.316239 : ℝ) = none := form_class_of_le_neg_one _ (by norm_num)
  have hlookup : ∀ sp : specie_type_t, StemFormConstants sp (0.316239 : ℝ) = none := by
    intro sp
    unfold StemFormConstants
    rw [hnone]
    rfl
  refine ⟨hq, ?_, ?_, hnone, hlookup, ?_⟩
  · unfold form_class_spec
    rw [hfloor]
    decide
  · unfold trunc
    rw [if_neg (by norm_num), hceil]
  · unfold create
    simp only [hq, hlookup, Option.map_none']

/-! ## Rounding -/

/-- Rounding a non-negative value within half a unit of the integer `n` gives `n`. -/
theorem round_eq_of_near (x : ℝ) (n : ℤ) (hx : 0 ≤ x) (h1 : (n : ℝ) - 1 / 2 ≤ x)
    (h2 : x < (n : ℝ) + 1 / 2) : round x = (n : ℝ) := by
  unfold round
  rw [if_pos hx]
  have : Int.floor (x + 1 / 2) = n := by
    rw [Int.floor_eq_iff]
    constructor <;> linarith
  rw [this]

/-- Rounding moves its argument by at most one half. -/
theorem abs_sub_round_le (x : ℝ) : |x - round x| ≤ 1 / 2 := by
  unfold round
  split_ifs with h
  · have h1 := Int.floor_le (x + 1 / 2)
    have h2 := Int.lt_floor_add_one (x + 1 / 2)
    rw [abs_le]
    constructor <;> linarith
  · have h1 := Int.le_ceil (x - 1 / 2)
    have h2 := Int.ceil_lt_add_one (x - 1 / 2)
    rw [abs_le]
    constructor <;> linarith

/-! ## The southern-pine example at the start of the top -/

/-- For the southern-pine example the forward query at `s = 0.6` lies strictly between 14
and 14.5 cm, so the cached `diameter_at_start_of_top` is 14 cm, while the forward query at
`s = 0.61` still exceeds 14 cm. -/
theorem southern_pine_20_25_top (c : Calculator ℝ)
    (hk : c.k_ = ⟨3.240, 1.5290, 13.646, 98.601, 171.700⟩)
    (hq : c.quota_ = (100 - 13.646 * Real.logb 10 651) / 25)
    (hi : c.inv_quota_ = 1 / c.quota_)
    (hr : c.root_swell_height_ = 0.06873 / (0.288285 : ℝ) ^ (0.8 : ℝ))
    (ht : c.diameter_at_start_of_top_ =
      round (c.calculate_diameter_at_height_as_share ⟨Real.logb 10, fun x y => x ^ y⟩ 0.6)) :
    14 < c.calculate_diameter_at_height_as_share ⟨Real.logb 10, fun x y => x ^ y⟩ 0.6 ∧
    c.calculate_diameter_at_height_as_share ⟨Real.logb 10, fun x y => x ^ y⟩ 0.6 < 14.5 ∧
    c.diameter_at_start_of_top_ = 14 ∧
    14 < c.calculate_diameter_at_height_as_share ⟨Real.logb 10, fun x y => x ^ y⟩ 0.61 := by
  obtain ⟨hq1, hq2, -, -, -⟩ := southern_pine_20_25_bounds c hq hi hr
  have hqpos : 0 < c.quota_ := by linarith
  have hA1 := logb_16116_lower
  have hA2 := logb_16116_upper
  have hB := logb_159631_lower
  have e1 : (1 + (1 - 0.6) * 1.5290 : ℝ) = 1.6116 := by norm_num
  have e2 : (1 + (1 - 0.61) * 1.5290 : ℝ) = 1.59631 := by norm_num
  have d60 : c.calculate_diameter_at_height_as_share ⟨Real.logb 10, fun x y => x ^ y⟩ 0.6 =
      171.700 * Real.logb 10 1.6116 / c.quota_ := by
    rw [diameter_top _ c 0.6 (by norm_num) (by norm_num) (le_refl _), hk, hi]
    simp only [e1]
    ring
  have d61 : c.calculate_diameter_at_height_as_share ⟨Real.logb 10, fun x y => x ^ y⟩ 0.61 =
      171.700 * Real.logb 10 1.59631 / c.quota_ := by
    rw [diameter_top _ c 0.61 (by norm_num) (by norm_num) (by norm_num), hk, hi]
    simp only [e2]
    ring
  have h14 : 14 < c.calculate_diameter_at_height_as_share ⟨Real.logb 10, fun x y => x ^ y⟩ 0.6 := by
    rw [d60, lt_div_iff₀ hqpos]
    linarith
  have h145 : c.calculate_diameter_at_height_as_share ⟨Real.logb 10, fun x y => x ^ y⟩ 0.6 < 14.5 := by
    rw [d60, div_lt_iff₀ hqpos]
    linarith
  refine ⟨h14, h145, ?_, ?_⟩
  · rw [ht]
    have hround := round_eq_of_near
      (c.calculate_diameter_at_height_as_share ⟨Real.logb 10, fun x y => x ^ y⟩ 0.6) 14
      (by linarith) (by push_cast; linarith) (by push_cast; linarith)
    rw [hround]
    norm_num
  · rw [d61, lt_div_iff₀ hqpos]
    linarith

theorem logb_159631_upper : Real.logb 10 1.59631 < (0.205 : ℝ) := by
  have h := logb_lt_of_pow_lt 1.59631 159631 100000 41 200 (by norm_num) (by norm_num)
    (by norm_num) (by norm_num) (by decide!)
  norm_num at h ⊢
  linarith

theorem logb_2296_lower : (0.36 : ℝ) < Real.logb 10 2.296 := by
  have h := lt_logb_of_lt_pow 2.296 2296 1000 9 25 (by norm_num) (by norm_num)
    (by norm_num) (by decide!)
  norm_num at h ⊢
  linarith

theorem logb_346_lower : (0.5 : ℝ) < Real.logb 10 3.46 := by
  have h := lt_logb_of_lt_pow 3.46 346 100 1 2 (by norm_num) (by norm_num)
    (by norm_num) (by decide!)
  norm_num at h ⊢
  linarith

/-- For the southern-pine example the diameter `D` predicted at `s = 0.61` (inside the top
region) lies strictly between the two cached boundary diameters, so the inverse query
treats it as a middle-stem diameter; the unclamped middle inverse equation at `D` exceeds
`0.6`, the upper end of the middle region. -/
theorem southern_pine_20_25_overshoot (c : Calculator ℝ)
    (hk : c.k_ = ⟨3.240, 1.5290, 13.646, 98.601, 171.700⟩)
    (hq : c.quota_ = (100 - 13.646 * Real.logb 10 651) / 25)
    (hi : c.inv_quota_ = 1 / c.quota_)
    (hr : c.root_swell_height_ = 0.06873 / (0.288285 : ℝ) ^ (0.8 : ℝ))
    (hroot : c.diameter_at_end_of_root_swell_ =
      round (c.calculate_diameter_at_height_as_share ⟨Real.logb 10, fun x y => x ^ y⟩
        c.root_swell_height_))
    (ht : c.diameter_at_start_of_top_ =
      round (c.calculate_diameter_at_height_as_share ⟨Real.logb 10, fun x y => x ^ y⟩ 0.6)) :
    c.diameter_at_start_of_top_ <
      c.calculate_diameter_at_height_as_share ⟨Real.logb 10, fun x y => x ^ y⟩ 0.61 ∧
    c.calculate_diameter_at_height_as_share ⟨Real.logb 10, fun x y => x ^ y⟩ 0.61 <
      c.diameter_at_end_of_root_swell_ ∧
    0.6 < 1 - ((10 : ℝ) ^ (c.calculate_diameter_at_height_as_share
      ⟨Real.logb 10, fun x y => x ^ y⟩ 0.61 * c.quota_ / c.k_.Q) - 1) / c.k_.beta := by
  obtain ⟨hq1, hq2, -, hr0, hr1⟩ := southern_pine_20_25_bounds c hq hi hr
  obtain ⟨-, -, htop, hD⟩ := southern_pine_20_25_top c hk hq hi hr ht
  have hqpos : 0 < c.quota_ := by linarith
  have hB := logb_159631_upper
  have hB0 := logb_159631_lower
  have hC := logb_2296_lower
  have hE := logb_346_lower
  have e2 : (1 + (1 - 0.61) * 1.5290 : ℝ) = 1.59631 := by norm_num
  have d61 : c.calculate_diameter_at_height_as_share ⟨Real.logb 10, fun x y => x ^ y⟩ 0.61 =
      171.700 * Real.logb 10 1.59631 / c.quota_ := by
    rw [diameter_top _ c 0.61 (by norm_num) (by norm_num) (by norm_num), hk, hi]
    simp only [e2]
    ring
  have hD2 : c.calculate_diameter_at_height_as_share ⟨Real.logb 10, fun x y => x ^ y⟩ 0.61 <
      14.5 := by
    rw [d61, div_lt_iff₀ hqpos]
    linarith
  -- the diameter at the end of the root swell exceeds 20 cm
  have hmono : Real.logb 10 3.46 ≤ Real.logb 10 (1 + (1 - c.root_swell_height_) * 3.240) := by
    apply Real.logb_le_logb_of_le (by norm_num) (by norm_num)
    nlinarith
  have dr : 20 < c.calculate_diameter_at_height_as_share ⟨Real.logb 10, fun x y => x ^ y⟩
      c.root_swell_height_ := by
    rw [diameter_middle _ c _ (le_of_lt hr0) (by linarith) (by linarith) (le_refl _), hk, hi]
    have e : (98.601 * Real.logb 10 (1 + (1 - c.root_swell_height_) * 3.240)) * (1 / c.quota_) =
        98.601 * Real.logb 10 (1 + (1 - c.root_swell_height_) * 3.240) / c.quota_ := by ring
    simp only [e]
    rw [lt_div_iff₀ hqpos]
    linarith
  have hround := abs_sub_round_le (c.calculate_diameter_at_height_as_share
    ⟨Real.logb 10, fun x y => x ^ y⟩ c.root_swell_height_)
  rw [abs_le] at hround
  refine ⟨by rw [htop]; exact hD, by rw [hroot]; linarith [hround.2], ?_⟩
  -- the unclamped middle inverse equation
  have hprod : c.calculate_diameter_at_height_as_share ⟨Real.logb 10, fun x y => x ^ y⟩ 0.61 *
      c.quota_ = 171.700 * Real.logb 10 1.59631 := by
    rw [d61]
    field_simp
  rw [hprod, hk]
  have hexp : 171.700 * Real.logb 10 1.59631 / 98.601 < Real.logb 10 2.296 := by
    rw [div_lt_iff₀ (by norm_num)]
    linarith
  have hpow : (10 : ℝ) ^ (171.700 * Real.logb 10 1.59631 / 98.601) < 2.296 := by
    have h1 : (10 : ℝ) ^ (171.700 * Real.logb 10 1.59631 / 98.601) <
        (10 : ℝ) ^ Real.logb 10 2.296 :=
      Real.rpow_lt_rpow_of_exponent_lt (by norm_num) hexp
    rwa [Real.rpow_logb (by norm_num) (by norm_num) (by norm_num)] at h1
  have e3 : (1 : ℝ) - ((10 : ℝ) ^ (171.700 * Real.logb 10 1.59631 / 98.601) - 1) / 3.240 =
      (4.240 - (10 : ℝ) ^ (171.700 * Real.logb 10 1.59631 / 98.601)) / 3.240 := by ring
  simp only [e3]
  rw [lt_div_iff₀ (by norm_num)]
  linarith

/-! ## C7 — round trip -/

/-- C7 (evaluation at the failing input): for southern pine, 20 m, 25 cm, form factor 0.5
and the share `s = 0.61` strictly inside the top region, the cached
`diameter_at_start_of_top` is 14 cm and the predicted diameter lies above it, so the
inverse query uses the middle equation, whose unclamped value exceeds `0.6` (the
assertion of the middle branch is violated); the clamp returns exactly `0.6` and the
round trip misses `s` by `0.01`, more than `1e-4`. -/
theorem C7_round_trip_misses_near_top_boundary :
    ∃ c, create ⟨Real.logb 10, fun x y => x ^ y⟩ .southern_pine 20 25 0.5 = some c ∧
      c.diameter_at_start_of_top_ = 14 ∧
      c.diameter_at_start_of_top_ <
        c.calculate_diameter_at_height_as_share ⟨Real.logb 10, fun x y => x ^ y⟩ 0.61 ∧
      0.6 < 1 - ((10 : ℝ) ^ (c.calculate_diameter_at_height_as_share
        ⟨Real.logb 10, fun x y => x ^ y⟩ 0.61 * c.quota_ / c.k_.Q) - 1) / c.k_.beta ∧
      c.calculate_height_as_share_at_diameter ⟨Real.logb 10, fun x y => x ^ y⟩
        (c.calculate_diameter_at_height_as_share ⟨Real.logb 10, fun x y => x ^ y⟩ 0.61) = 0.6 ∧
      (1e-4 : ℝ) < |c.calculate_height_as_share_at_diameter ⟨Real.logb 10, fun x y => x ^ y⟩
        (c.calculate_diameter_at_height_as_share ⟨Real.logb 10, fun x y => x ^ y⟩ 0.61) -
          0.61| := by
  obtain ⟨c, hc, -, hk, hq, hi, hr, hroot, ht⟩ := southern_pine_20_25
  obtain ⟨-, -, htop, -⟩ := southern_pine_20_25_top c hk hq hi hr ht
  obtain ⟨h1, h2, h3⟩ := southern_pine_20_25_overshoot c hk hq hi hr hroot ht
  have hval : c.calculate_height_as_share_at_diameter ⟨Real.logb 10, fun x y => x ^ y⟩
      (c.calculate_diameter_at_height_as_share ⟨Real.logb 10, fun x y => x ^ y⟩ 0.61) =
        0.6 := by
    unfold calculate_height_as_share_at_diameter
    rw [if_neg (not_le.mpr h1), if_pos (le_of_lt h2), if_neg (ne_of_lt h2)]
    unfold clamp START_OF_TOP_AS_HEIGHT_SHARE
    obtain ⟨-, -, -, hr0, hr1⟩ := southern_pine_20_25_bounds c hq hi hr
    rw [if_neg (not_lt.mpr (by linarith)), if_pos h3]
  refine ⟨c, hc, htop, h1, h3, hval, ?_⟩
  rw [hval]
  norm_num [abs_of_neg]

/-! ## The stem-form table -/

/-- Every coefficient of every row of the stem-form table is positive. -/
theorem stem_form_constants_pos (k : stem_form_constants_t ℝ)
    (hk : k ∈ (stem_form_constants : List (stem_form_constants_t ℝ))) :
    0 < k.beta ∧ 0 < k.gamma ∧ 0 < k.q ∧ 0 < k.Q ∧ 0 < k.R := by
  simp only [stem_form_constants, List.mem_cons, List.mem_singleton, List.not_mem_nil,
    or_false] at hk
  rcases hk with h | h | h | h | h | h | h | h | h | h | h | h | h | h | h | h | h | h | h |
    h | h | h | h | h | h | h | h | h <;> subst h <;> norm_num

/-- The row selected by a successful lookup is a row of the table. -/
theorem StemFormConstants_mem (sp : specie_type_t) (q : ℝ) (k : stem_form_constants_t ℝ)
    (hk : StemFormConstants sp q = some k) :
    k ∈ (stem_form_constants : List (stem_form_constants_t ℝ)) := by
  unfold StemFormConstants at hk
  rw [Option.bind_eq_some] at hk
  obtain ⟨n, -, hn⟩ := hk
  exact List.getElem?_mem hn

/-! ## Monotonicity of the three region equations -/

/-- Within one region — both shares below the end of the root swell and below `0.6`, or
both from the end of the root swell up to below `0.6`, or both from `0.6` upwards — the
forward query is non-increasing, provided the coefficients and `inv_quota` are
non-negative. -/
theorem diameter_antitone_within_region (c : Calculator ℝ) (hb : 0 ≤ c.k_.beta)
    (hg : 0 ≤ c.k_.gamma) (hq : 0 ≤ c.k_.q) (hQ : 0 ≤ c.k_.Q) (hR : 0 ≤ c.k_.R)
    (hinv : 0 ≤ c.inv_quota_) (s1 s2 : ℝ) (h0 : 0 ≤ s1) (h12 : s1 ≤ s2) (h1 : s2 ≤ 1)
    (hreg : (s2 < 0.6 ∧ s2 < c.root_swell_height_) ∨ (c.root_swell_height_ ≤ s1 ∧ s2 < 0.6) ∨
      0.6 ≤ s1) :
    c.calculate_diameter_at_height_as_share ⟨Real.logb 10, fun x y => x ^ y⟩ s2 ≤
      c.calculate_diameter_at_height_as_share ⟨Real.logb 10, fun x y => x ^ y⟩ s1 := by
  have h02 : 0 ≤ s2 := le_trans h0 h12
  have h11 : s1 ≤ 1 := le_trans h12 h1
  rcases hreg with ⟨ht, hr⟩ | ⟨hr, ht⟩ | ht
  · rw [diameter_bottom _ c s2 h02 h1 ht hr,
      diameter_bottom _ c s1 h0 h11 (lt_of_le_of_lt h12 ht) (lt_of_le_of_lt h12 hr)]
    apply mul_le_mul_of_nonneg_right _ hinv
    have hlog : Real.logb 10 (1 + 10000 * s1) ≤ Real.logb 10 (1 + 10000 * s2) :=
      Real.logb_le_logb_of_le (by norm_num) (by linarith) (by linarith)
    have := mul_le_mul_of_nonneg_left hlog hq
    linarith
  · rw [diameter_middle _ c s2 h02 h1 ht (le_trans hr h12),
      diameter_middle _ c s1 h0 h11 (lt_of_le_of_lt h12 ht) hr]
    apply mul_le_mul_of_nonneg_right _ hinv
    apply mul_le_mul_of_nonneg_left _ hQ
    apply Real.logb_le_logb_of_le (by norm_num)
    · have : 0 ≤ (1 - s2) * c.k_.beta := mul_nonneg (by linarith) hb
      linarith
    · have : (1 - s2) * c.k_.beta ≤ (1 - s1) * c.k_.beta :=
        mul_le_mul_of_nonneg_right (by linarith) hb
      linarith
  · rw [diameter_top _ c s2 h02 h1 (le_trans ht h12), diameter_top _ c s1 h0 h11 ht]
    apply mul_le_mul_of_nonneg_right _ hinv
    apply mul_le_mul_of_nonneg_left _ hR
    apply Real.logb_le_logb_of_le (by norm_num)
    · have : 0 ≤ (1 - s2) * c.k_.gamma := mul_nonneg (by linarith) hg
      linarith
    · have : (1 - s2) * c.k_.gamma ≤ (1 - s1) * c.k_.gamma :=
        mul_le_mul_of_nonneg_right (by linarith) hg
      linarith

/-! ## A tree of implausibly small height -/

theorem logb_13000000001_lower : (10 : ℝ) < Real.logb 10 13000000001 := by
  have h := lt_logb_of_lt_pow 13000000001 13000000001 1 10 1 (by norm_num) (by norm_num)
    (by norm_num) (by decide!)
  norm_num at h ⊢
  linarith

theorem logb_108409_pos : (0 : ℝ) < Real.logb 10 1.08409 :=
  Real.logb_pos (by norm_num) (by norm_num)

/-- Southern pine of height one micrometre (25 cm, form factor 0.5): construction succeeds
with form class 0 and a negative scale factor. -/
theorem southern_pine_tiny :
    ∃ c, create ⟨Real.logb 10, fun x y => x ^ y⟩ .southern_pine 0.000001 25 0.5 = some c ∧
      c.k_ = ⟨0.620, 0.8409, 15.970, 285.280, 183.440⟩ ∧
      c.quota_ < 0 ∧ c.inv_quota_ < 0 := by
  have hq : FormQuotient .southern_pine (0.5 : ℝ) 0.000001 25 = 0.536875008742 := by
    unfold FormQuotient form_quotient_constants
    norm_num
  have hfc : form_class (0.536875008742 : ℝ) = some 0 :=
    form_class_of_bucket _ 1 (by norm_num) (by norm_num) (by norm_num)
  have hk : StemFormConstants .southern_pine (FormQuotient .southern_pine (0.5 : ℝ) 0.000001 25) =
      some ⟨0.620, 0.8409, 15.970, 285.280, 183.440⟩ := by
    rw [hq]
    unfold StemFormConstants
    rw [hfc]
    rfl
  obtain ⟨c, hc⟩ := create_isSome_of_lookup ⟨Real.logb 10, fun x y => x ^ y⟩ .southern_pine
    (0.000001 : ℝ) 25 0.5 _ hk
  obtain ⟨-, -, -, -, h5, h6, h7, h8, -, -, -⟩ := create_spec _ _ _ _ _ c hc
  rw [h5, hk] at h6
  have hkc : c.k_ = ⟨0.620, 0.8409, 15.970, 285.280, 183.440⟩ := (Option.some.inj h6).symm
  have hquota : c.quota_ < 0 := by
    rw [h7, hkc]
    simp only [ALFA]
    have e : (1 + 10000 * 1.3 / 0.000001 : ℝ) = 13000000001 := by norm_num
    rw [e]
    have hL := logb_13000000001_lower
    apply div_neg_of_neg_of_pos _ (by norm_num)
    linarith
  refine ⟨c, hc, hkc, hquota, ?_⟩
  rw [h8]
  exact one_div_neg.mpr hquota

/-! ## C8 — monotonicity of the forward query -/

/-- C8 (as stated) fails, in two ways.  (i) For northern spruce, 15 m, 32 cm, form factor
0.4 the root swell ends between the shares 0.12 and 0.13 and the diameter rises across it:
the value at `s = 0.13` exceeds the value at `s = 0.12`.  (ii) For a southern pine of
height 0.000001 m the scale factor is negative and the diameter at `s = 1` exceeds the
diameter at `s = 0.9`. -/
theorem C8_counterexample :
    (∃ c, create ⟨Real.logb 10, fun x y => x ^ y⟩ .northern_spruce 15 32 0.4 = some c ∧
      (0 : ℝ) ≤ 0.12 ∧ (0.12 : ℝ) ≤ 0.13 ∧ (0.13 : ℝ) ≤ 1 ∧
      c.calculate_diameter_at_height_as_share ⟨Real.logb 10, fun x y => x ^ y⟩ 0.12 <
        c.calculate_diameter_at_height_as_share ⟨Real.logb 10, fun x y => x ^ y⟩ 0.13) ∧
    (∃ c, create ⟨Real.logb 10, fun x y => x ^ y⟩ .southern_pine 0.000001 25 0.5 = some c ∧
      (0 : ℝ) ≤ 0.9 ∧ (0.9 : ℝ) ≤ 1 ∧ (1 : ℝ) ≤ 1 ∧
      c.calculate_diameter_at_height_as_share ⟨Real.logb 10, fun x y => x ^ y⟩ 0.9 <
        c.calculate_diameter_at_height_as_share ⟨Real.logb 10, fun x y => x ^ y⟩ 1) := by
  constructor
  · obtain ⟨c, hc, hk, hq, hi, hr⟩ := northern_spruce_15_32
    obtain ⟨hinv, hr12, hr13⟩ := northern_spruce_15_32_bounds c hq hi hr
    refine ⟨c, hc, by norm_num, by norm_num, by norm_num, ?_⟩
    rw [diameter_bottom _ c 0.12 (by norm_num) (by norm_num) (by norm_num) hr12,
      diameter_middle _ c 0.13 (by norm_num) (by norm_num) (by norm_num) (le_of_lt hr13), hk]
    have e1 : (1 + 10000 * 0.12 : ℝ) = 1201 := by norm_num
    have e2 : (1 + (1 - 0.13) * 0.620 : ℝ) = 1.5394 := by norm_num
    simp only [e1, e2]
    apply mul_lt_mul_of_pos_right _ hinv
    have hA := logb_1201_lower
    have hB := logb_15394_lower
    linarith
  · obtain ⟨c, hc, hk, -, hinv⟩ := southern_pine_tiny
    refine ⟨c, hc, by norm_num, by norm_num, le_refl _, ?_⟩
    rw [diameter_at_tip c, diameter_top _ c 0.9 (by norm_num) (by norm_num) (by norm_num), hk]
    have e1 : (1 + (1 - 0.9) * 0.8409 : ℝ) = 1.08409 := by norm_num
    simp only [e1]
    have hL := logb_108409_pos
    exact mul_neg_of_pos_of_neg (mul_pos (by norm_num) hL) hinv

/-- C8 (amended): for every Calculator constructed from any species, `height_m > 0`,
`diameter_under_bark_cm > 0` and any form factor, whose scale factor `quota` is positive,
and for all shares `0 ≤ s1 ≤ s2 ≤ 1` lying in the same region (both below the end of the
root swell and below `0.6`, or both from the end of the root swell up to below `0.6`, or
both from `0.6` upwards), `calculate_diameter_at_height_as_share s2 ≤
calculate_diameter_at_height_as_share s1`. -/
theorem C8_monotone_within_region (sp : specie_type_t) (h d f : ℝ) (c : Calculator ℝ)
    (_hh : 0 < h) (_hd : 0 < d)
    (hc : create ⟨Real.logb 10, fun x y => x ^ y⟩ sp h d f = some c) (hquota : 0 < c.quota_)
    (s1 s2 : ℝ) (h0 : 0 ≤ s1) (h12 : s1 ≤ s2) (h1 : s2 ≤ 1)
    (hreg : (s2 < 0.6 ∧ s2 < c.root_swell_height_) ∨ (c.root_swell_height_ ≤ s1 ∧ s2 < 0.6) ∨
      0.6 ≤ s1) :
    c.calculate_diameter_at_height_as_share ⟨Real.logb 10, fun x y => x ^ y⟩ s2 ≤
      c.calculate_diameter_at_height_as_share ⟨Real.logb 10, fun x y => x ^ y⟩ s1 := by
  obtain ⟨-, -, -, -, -, h6, -, h8, -, -, -⟩ := create_spec _ sp h d f c hc
  obtain ⟨hb, hg, hq, hQ, hR⟩ := stem_form_constants_pos c.k_ (StemFormConstants_mem _ _ _ h6)
  have hinv : 0 ≤ c.inv_quota_ := by
    rw [h8]
    exact le_of_lt (one_div_pos.mpr hquota)
  exact diameter_antitone_within_region c (le_of_lt hb) (le_of_lt hg) (le_of_lt hq)
    (le_of_lt hQ) (le_of_lt hR) hinv s1 s2 h0 h12 h1 hreg

/-- C8 witness: the amended statement at the southern-pine example for the shares `0.7` and
`0.8` of the top region. -/
theorem C8_monotone_within_region_witness :
    ∃ c, create ⟨Real.logb 10, fun x y => x ^ y⟩ .southern_pine 20 25 0.5 = some c ∧
      (0 : ℝ) < 20 ∧ (0 : ℝ) < 25 ∧
      0 < c.quota_ ∧ (0 : ℝ) ≤ 0.7 ∧ (0.7 : ℝ) ≤ 0.8 ∧ (0.8 : ℝ) ≤ 1 ∧
      (((0.8 : ℝ) < 0.6 ∧ 0.8 < c.root_swell_height_) ∨
        (c.root_swell_height_ ≤ 0.7 ∧ (0.8 : ℝ) < 0.6) ∨ (0.6 : ℝ) ≤ 0.7) ∧
      c.calculate_diameter_at_height_as_share ⟨Real.logb 10, fun x y => x ^ y⟩ 0.8 ≤
        c.calculate_diameter_at_height_as_share ⟨Real.logb 10, fun x y => x ^ y⟩ 0.7 := by
  obtain ⟨c, hc, -, -, hq, hi, hr, -, -⟩ := southern_pine_20_25
  obtain ⟨hq1, -, -, -, -⟩ := southern_pine_20_25_bounds c hq hi hr
  have hpos : 0 < c.quota_ := by linarith
  have hreg : ((0.8 : ℝ) < 0.6 ∧ 0.8 < c.root_swell_height_) ∨
      (c.root_swell_height_ ≤ 0.7 ∧ (0.8 : ℝ) < 0.6) ∨ (0.6 : ℝ) ≤ 0.7 :=
    Or.inr (Or.inr (by norm_num))
  exact ⟨c, hc, by norm_num, by norm_num, hpos, by norm_num, by norm_num, by norm_num, hreg,
    C8_monotone_within_region .southern_pine 20 25 0.5 c (by norm_num) (by norm_num) hc hpos
      0.7 0.8 (by norm_num) (by norm_num) (by norm_num) hreg⟩

/-! ## The middle and top equations at the share 0.6, row by row -/

/-- C10 (as stated) fails: for the southern-pine example the forward query at `s = 0.6`
does not return the cached `diameter_at_start_of_top` (14 cm); it returns the value of the
top equation, which lies strictly between 14 and 14.5 cm. -/
theorem C10_counterexample :
    ∃ c, create ⟨Real.logb 10, fun x y => x ^ y⟩ .southern_pine 20 25 0.5 = some c ∧
      c.calculate_diameter_at_height_as_share ⟨Real.logb 10, fun x y => x ^ y⟩ 0.6 ≠
        c.diameter_at_start_of_top_ := by
  obtain ⟨c, hc, -, hk, hq, hi, hr, -, ht⟩ := southern_pine_20_25
  obtain ⟨h14, -, htop, -⟩ := southern_pine_20_25_top c hk hq hi hr ht
  refine ⟨c, hc, ?_⟩
  rw [htop]
  exact ne_of_gt h14

/-- C10 (amended): for every constructed Calculator the cached boundary diameters are the
forward query's values at `root_swell_height` and at `0.6` rounded to the nearest whole
centimetre; the forward query itself has no short-circuit and returns the unrounded value
of the region equation (top equation at `0.6`), which is within half a centimetre of the
cached diameter. -/
theorem C10_cached_boundary_is_rounded_forward_value (m : Libm ℝ) (sp : specie_type_t)
    (h d f : ℝ) (c : Calculator ℝ) (hc : create m sp h d f = some c) :
    c.diameter_at_end_of_root_swell_ =
      round (c.calculate_diameter_at_height_as_share m c.root_swell_height_) ∧
    c.diameter_at_start_of_top_ = round (c.calculate_diameter_at_height_as_share m 0.6) ∧
    c.calculate_diameter_at_height_as_share m 0.6 =
      (c.k_.R * m.log10 (1 + (1 - 0.6) * c.k_.gamma)) * c.inv_quota_ ∧
    |c.calculate_diameter_at_height_as_share m c.root_swell_height_ -
      c.diameter_at_end_of_root_swell_| ≤ 1 / 2 ∧
    |c.calculate_diameter_at_height_as_share m 0.6 - c.diameter_at_start_of_top_| ≤ 1 / 2 := by
  obtain ⟨-, -, -, -, -, -, -, -, -, h10, h11⟩ := create_spec m sp h d f c hc
  have h11a : c.diameter_at_start_of_top_ =
      round (c.calculate_diameter_at_height_as_share m 0.6) := h11
  refine ⟨h10, h11a, diameter_top m c 0.6 (by norm_num) (by norm_num) (le_refl _), ?_, ?_⟩
  · rw [h10]
    exact abs_sub_round_le _
  · rw [h11a]
    exact abs_sub_round_le _

/-- C10 witness: the amended statement at the southern-pine example. -/
theorem C10_cached_boundary_is_rounded_forward_value_witness :
    ∃ c, create ⟨Real.logb 10, fun x y => x ^ y⟩ .southern_pine 20 25 0.5 = some c ∧
      c.diameter_at_start_of_top_ =
        round (c.calculate_diameter_at_height_as_share ⟨Real.logb 10, fun x y => x ^ y⟩ 0.6) ∧
      |c.calculate_diameter_at_height_as_share ⟨Real.logb 10, fun x y => x ^ y⟩ 0.6 -
        c.diameter_at_start_of_top_| ≤ 1 / 2 := by
  obtain ⟨c, hc, -⟩ := southern_pine_20_25
  have h := C10_cached_boundary_is_rounded_forward_value ⟨Real.logb 10, fun x y => x ^ y⟩
    .southern_pine 20 25 0.5 c hc
  exact ⟨c, hc, h.2.1, h.2.2.2.2⟩

/-! ## A thin southern pine: both cached boundary diameters round to 1 cm -/

theorem logb_3204_bounds : (0.4 : ℝ) < Real.logb 10 3.204 ∧ Real.logb 10 3.204 < 0.6 := by
  have h1 := lt_logb_of_lt_pow 3.204 3204 1000 2 5 (by norm_num) (by norm_num)
    (by norm_num) (by decide!)
  have h2 := logb_lt_of_pow_lt 3.204 3204 1000 3 5 (by norm_num) (by norm_num)
    (by norm_num) (by norm_num) (by decide!)
  norm_num at h1 h2 ⊢
  constructor <;> linarith

theorem logb_6228_lower : (0.75 : ℝ) < Real.logb 10 6.228 := by
  have h := lt_logb_of_lt_pow 6.228 6228 1000 3 4 (by norm_num) (by norm_num)
    (by norm_num) (by decide!)
  norm_num at h ⊢
  linarith

theorem logb_1407_upper : Real.logb 10 14.07 < (1.2 : ℝ) := by
  have h := logb_lt_of_pow_lt 14.07 1407 100 6 5 (by norm_num) (by norm_num)
    (by norm_num) (by norm_num) (by decide!)
  norm_num at h ⊢
  linarith

/-- Southern pine, 20 m, 1 cm under bark, form factor 0.5 (form quotient 0.790027, form
class 5): the constructed object. -/
theorem southern_pine_20_1 :
    ∃ c, create ⟨Real.logb 10, fun x y => x ^ y⟩ .southern_pine 20 1 0.5 = some c ∧
      c.k_ = ⟨13.070, 5.5100, 12.951, 54.050, 84.904⟩ ∧
      c.quota_ = (100 - 12.951 * Real.logb 10 651) / 1 ∧
      c.inv_quota_ = 1 / c.quota_ ∧
      c.root_swell_height_ = 0.06873 / (0.209973 : ℝ) ^ (0.8 : ℝ) ∧
      c.diameter_at_end_of_root_swell_ =
        round (c.calculate_diameter_at_height_as_share ⟨Real.logb 10, fun x y => x ^ y⟩
          c.root_swell_height_) ∧
      c.diameter_at_start_of_top_ =
        round (c.calculate_diameter_at_height_as_share ⟨Real.logb 10, fun x y => x ^ y⟩ 0.6) := by
  have hq : FormQuotient .southern_pine (0.5 : ℝ) 20 1 = 0.790027 := by
    unfold FormQuotient form_quotient_constants
    norm_num
  have hfc : form_class (0.790027 : ℝ) = some 5 :=
    form_class_of_bucket _ 6 (by norm_num) (by norm_num) (by norm_num)
  have hk : StemFormConstants .southern_pine (FormQuotient .southern_pine (0.5 : ℝ) 20 1) =
      some ⟨13.070, 5.5100, 12.951, 54.050, 84.904⟩ := by
    rw [hq]
    unfold StemFormConstants
    rw [hfc]
    rfl
  obtain ⟨c, hc⟩ := create_isSome_of_lookup ⟨Real.logb 10, fun x y => x ^ y⟩ .southern_pine
    (20 : ℝ) 1 0.5 _ hk
  obtain ⟨-, -, -, -, h5, h6, h7, h8, h9, h10, h11⟩ := create_spec _ _ _ _ _ c hc
  rw [h5, hk] at h6
  have hkc : c.k_ = ⟨13.070, 5.5100, 12.951, 54.050, 84.904⟩ := (Option.some.inj h6).symm
  refine ⟨c, hc, hkc, ?_, h8, ?_, h10, h11⟩
  · rw [h7, hkc]
    simp only [ALFA]
    norm_num
  · rw [h9, h5, hq]
    simp only [RootSwellHeightAsShare, root_swell_constants]
    norm_num

/-- For the thin southern pine the root swell ends below 60 % of the height and both cached
boundary diameters are 1 cm. -/
theorem southern_pine_20_1_boundaries (c : Calculator ℝ)
    (hk : c.k_ = ⟨13.070, 5.5100, 12.951, 54.050, 84.904⟩)
    (hq : c.quota_ = (100 - 12.951 * Real.logb 10 651) / 1)
    (hi : c.inv_quota_ = 1 / c.quota_)
    (hr : c.root_swell_height_ = 0.06873 / (0.209973 : ℝ) ^ (0.8 : ℝ))
    (hroot : c.diameter_at_end_of_root_swell_ =
      round (c.calculate_diameter_at_height_as_share ⟨Real.logb 10, fun x y => x ^ y⟩
        c.root_swell_height_))
    (ht : c.diameter_at_start_of_top_ =
      round (c.calculate_diameter_at_height_as_share ⟨Real.logb 10, fun x y => x ^ y⟩ 0.6)) :
    0 < c.root_swell_height_ ∧ c.root_swell_height_ < 0.6 ∧
      c.diameter_at_end_of_root_swell_ = 1 ∧ c.diameter_at_start_of_top_ = 1 := by
  have hlo := logb_651_lower
  have hhi := logb_651_upper
  have hq1 : 63.55 < c.quota_ := by
    rw [hq, div_one]
    linarith
  have hq2 : c.quota_ < 63.57 := by
    rw [hq, div_one]
    linarith
  have hqpos : 0 < c.quota_ := by linarith
  have hpow : (0.209973 : ℝ) ≤ (0.209973 : ℝ) ^ (0.8 : ℝ) := by
    have h : (0.209973 : ℝ) ^ (1 : ℝ) ≤ (0.209973 : ℝ) ^ (0.8 : ℝ) :=
      Real.rpow_le_rpow_of_exponent_ge (by norm_num) (by norm_num) (by norm_num)
    rwa [Real.rpow_one] at h
  have hr0 : 0 < c.root_swell_height_ := by
    rw [hr]
    exact div_pos (by norm_num) (by linarith)
  have hr1 : c.root_swell_height_ < 0.6 := by
    rw [hr, div_lt_iff₀ (by linarith)]
    linarith
  obtain ⟨hA1, hA2⟩ := logb_3204_bounds
  have hB1 := logb_6228_lower
  have hB2 := logb_1407_upper
  have e1 : (1 + (1 - 0.6) * 5.5100 : ℝ) = 3.204 := by norm_num
  have d60 : c.calculate_diameter_at_height_as_share ⟨Real.logb 10, fun x y => x ^ y⟩ 0.6 =
      84.904 * Real.logb 10 3.204 / c.quota_ := by
    rw [diameter_top _ c 0.6 (by norm_num) (by norm_num) (le_refl _), hk, hi]
    simp only [e1]
    ring
  have dr : c.calculate_diameter_at_height_as_share ⟨Real.logb 10, fun x y => x ^ y⟩
      c.root_swell_height_ =
        54.050 * Real.logb 10 (1 + (1 - c.root_swell_height_) * 13.070) / c.quota_ := by
    rw [diameter_middle _ c _ (le_of_lt hr0) (by linarith) hr1 (le_refl _), hk, hi]
    ring
  have hm1 : Real.logb 10 6.228 ≤ Real.logb 10 (1 + (1 - c.root_swell_height_) * 13.070) :=
    Real.logb_le_logb_of_le (by norm_num) (by norm_num) (by linarith)
  have hm2 : Real.logb 10 (1 + (1 - c.root_swell_height_) * 13.070) ≤ Real.logb 10 14.07 :=
    Real.logb_le_logb_of_le (by norm_num) (by linarith) (by linarith)
  have hroot1 : round (c.calculate_diameter_at_height_as_share
      ⟨Real.logb 10, fun x y => x ^ y⟩ c.root_swell_height_) = ((1 : ℤ) : ℝ) := by
    apply round_eq_of_near
    · rw [dr]
      apply div_nonneg _ (le_of_lt hqpos)
      linarith
    · rw [dr, le_div_iff₀ hqpos]
      push_cast
      linarith
    · rw [dr, div_lt_iff₀ hqpos]
      push_cast
      linarith
  have htop1 : round (c.calculate_diameter_at_height_as_share
      ⟨Real.logb 10, fun x y => x ^ y⟩ 0.6) = ((1 : ℤ) : ℝ) := by
    apply round_eq_of_near
    · rw [d60]
      apply div_nonneg _ (le_of_lt hqpos)
      linarith
    · rw [d60, le_div_iff₀ hqpos]
      push_cast
      linarith
    · rw [d60, div_lt_iff₀ hqpos]
      push_cast
      linarith
  refine ⟨hr0, hr1, ?_, ?_⟩
  · rw [hroot, hroot1]
    norm_num
  · rw [ht, htop1]
    norm_num

/-! ## C11 — the inverse query at the cached boundary diameters -/

/-- C11 (as stated) fails: for southern pine, 20 m, 1 cm under bark, form factor 0.5 both
cached boundary diameters are 1 cm, and the inverse query at
`diameter_at_end_of_root_swell` returns `0.6`, not `root_swell_height` (which is below
`0.6`). -/
theorem C11_counterexample :
    ∃ c, create ⟨Real.logb 10, fun x y => x ^ y⟩ .southern_pine 20 1 0.5 = some c ∧
      c.diameter_at_end_of_root_swell_ = c.diameter_at_start_of_top_ ∧
      c.calculate_height_as_share_at_diameter ⟨Real.logb 10, fun x y => x ^ y⟩
        c.diameter_at_end_of_root_swell_ = 0.6 ∧
      c.calculate_height_as_share_at_diameter ⟨Real.logb 10, fun x y => x ^ y⟩
        c.diameter_at_end_of_root_swell_ ≠ c.root_swell_height_ := by
  obtain ⟨c, hc, hk, hq, hi, hr, hroot, ht⟩ := southern_pine_20_1
  obtain ⟨-, hr1, hdr, hdt⟩ := southern_pine_20_1_boundaries c hk hq hi hr hroot ht
  have heq : c.diameter_at_end_of_root_swell_ = c.diameter_at_start_of_top_ := by
    rw [hdr, hdt]
  have hval : c.calculate_height_as_share_at_diameter ⟨Real.logb 10, fun x y => x ^ y⟩
      c.diameter_at_end_of_root_swell_ = 0.6 := by
    unfold calculate_height_as_share_at_diameter START_OF_TOP_AS_HEIGHT_SHARE
    rw [if_pos (le_of_eq heq), if_pos heq]
  refine ⟨c, hc, heq, hval, ?_⟩
  rw [hval]
  exact ne_of_gt hr1

/-- C11 (amended): for every Calculator,
`calculate_height_as_share_at_diameter diameter_at_start_of_top = 0.6` exactly, and
`calculate_height_as_share_at_diameter diameter_at_end_of_root_swell = root_swell_height`
exactly provided `diameter_at_start_of_top < diameter_at_end_of_root_swell`. -/
theorem C11_inverse_boundary_exactness (m : Libm ℝ) (c : Calculator ℝ) :
    c.calculate_height_as_share_at_diameter m c.diameter_at_start_of_top_ = 0.6 ∧
    (c.diameter_at_start_of_top_ < c.diameter_at_end_of_root_swell_ →
      c.calculate_height_as_share_at_diameter m c.diameter_at_end_of_root_swell_ =
        c.root_swell_height_) := by
  constructor
  · unfold calculate_height_as_share_at_diameter START_OF_TOP_AS_HEIGHT_SHARE
    rw [if_pos (le_refl _), if_pos rfl]
  · intro h
    unfold calculate_height_as_share_at_diameter
    rw [if_neg (not_le.mpr h), if_pos (le_refl _), if_pos rfl]

/-- C11 witness: the amended statement at the southern-pine example, whose cached boundary
diameters are ordered. -/
theorem C11_inverse_boundary_exactness_witness :
    ∃ c, create ⟨Real.logb 10, fun x y => x ^ y⟩ .southern_pine 20 25 0.5 = some c ∧
      c.diameter_at_start_of_top_ < c.diameter_at_end_of_root_swell_ ∧
      c.calculate_height_as_share_at_diameter ⟨Real.logb 10, fun x y => x ^ y⟩
        c.diameter_at_end_of_root_swell_ = c.root_swell_height_ := by
  obtain ⟨c, hc, -, hk, hq, hi, hr, hroot, ht⟩ := southern_pine_20_25
  obtain ⟨h1, h2, -⟩ := southern_pine_20_25_overshoot c hk hq hi hr hroot ht
  have hlt : c.diameter_at_start_of_top_ < c.diameter_at_end_of_root_swell_ := lt_trans h1 h2
  exact ⟨c, hc, hlt,
    (C11_inverse_boundary_exactness ⟨Real.logb 10, fun x y => x ^ y⟩ c).2 hlt⟩

/-- For each species and every form quotient `q` with `1 - q ≥ 0.1`, the root-swell share
`a / (1 - q) ^ b` is positive and below `0.6`. -/
theorem RootSwellHeightAsShare_bounds (sp : specie_type_t) (q : ℝ) (hq : q ≤ 0.9) :
    0 < RootSwellHeightAsShare ⟨Real.logb 10, fun x y => x ^ y⟩ sp q ∧
      RootSwellHeightAsShare ⟨Real.logb 10, fun x y => x ^ y⟩ sp q < 0.6 := by
  have hx : (0.1 : ℝ) ≤ 1 - q := by linarith
  have hx0 : (0 : ℝ) < 1 - q := by linarith
  have h8 : (0.15 : ℝ) ≤ (0.1 : ℝ) ^ (0.8 : ℝ) :=
    le_rpow_of_pow_le 0.1 0.15 0.8 4 5 (by norm_num) (by norm_num) (by norm_num)
      (by norm_num) (by norm_num)
  have h9 : (0.12 : ℝ) ≤ (0.1 : ℝ) ^ (0.9 : ℝ) :=
    le_rpow_of_pow_le 0.1 0.12 0.9 9 10 (by norm_num) (by norm_num) (by norm_num)
      (by norm_num) (by norm_num)
  have h5 : (0.3 : ℝ) ≤ (0.1 : ℝ) ^ (0.5 : ℝ) :=
    le_rpow_of_pow_le 0.1 0.3 0.5 1 2 (by norm_num) (by norm_num) (by norm_num)
      (by norm_num) (by norm_num)
  have m8 : (0.1 : ℝ) ^ (0.8 : ℝ) ≤ (1 - q) ^ (0.8 : ℝ) :=
    Real.rpow_le_rpow (by norm_num) hx (by norm_num)
  have m9 : (0.1 : ℝ) ^ (0.9 : ℝ) ≤ (1 - q) ^ (0.9 : ℝ) :=
    Real.rpow_le_rpow (by norm_num) hx (by norm_num)
  have m5 : (0.1 : ℝ) ^ (0.5 : ℝ) ≤ (1 - q) ^ (0.5 : ℝ) :=
    Real.rpow_le_rpow (by norm_num) hx (by norm_num)
  cases sp <;> simp only [RootSwellHeightAsShare, root_swell_constants]
  · constructor
    · exact div_pos (by norm_num) (by linarith)
    · rw [div_lt_iff₀ (by linarith)]
      linarith
  · constructor
    · exact div_pos (by norm_num) (by linarith)
    · rw [div_lt_iff₀ (by linarith)]
      linarith
  · constructor
    · exact div_pos (by norm_num) (by linarith)
    · rw [div_lt_iff₀ (by linarith)]
      linarith
  · constructor
    · exact div_pos (by norm_num) (by linarith)
    · rw [div_lt_iff₀ (by linarith)]
      linarith

/-- Southern pine, 35 m, 15 cm under bark, form factor 0.65 (form quotient 0.94941, form
class 6): the constructed object and its root-swell share. -/
theorem southern_pine_35_15 :
    ∃ c, create ⟨Real.logb 10, fun x y => x ^ y⟩ .southern_pine 35 15 0.65 = some c ∧
      c.form_quotient_ = 0.94941 ∧
      c.root_swell_height_ = 0.06873 / (0.05059 : ℝ) ^ (0.8 : ℝ) := by
  have hq : FormQuotient .southern_pine (0.65 : ℝ) 35 15 = 0.94941 := by
    unfold FormQuotient form_quotient_constants
    norm_num
  have hfc : form_class (0.94941 : ℝ) = some 6 :=
    form_class_of_bucket _ 9 (by norm_num) (by norm_num) (by norm_num)
  have hk : StemFormConstants .southern_pine (FormQuotient .southern_pine (0.65 : ℝ) 35 15) =
      some ⟨33.502, 6.4450, 12.755, 39.982, 83.659⟩ := by
    rw [hq]
    unfold StemFormConstants
    rw [hfc]
    rfl
  obtain ⟨c, hc⟩ := create_isSome_of_lookup ⟨Real.logb 10, fun x y => x ^ y⟩ .southern_pine
    (35 : ℝ) 15 0.65 _ hk
  obtain ⟨-, -, -, -, h5, -, -, -, h9, -, -⟩ := create_spec _ _ _ _ _ c hc
  refine ⟨c, hc, by rw [h5, hq], ?_⟩
  rw [h9, h5, hq]
  simp only [RootSwellHeightAsShare, root_swell_constants]
  norm_num

/-! ## C12 — the construction invariant on the root-swell share -/

/-- C12 (as stated) fails: for southern pine, 35 m, 15 cm under bark, form factor 0.65
(all inputs within the stated ranges) the form quotient is 0.94941 and the derived
`root_swell_height` exceeds `0.6`. -/
theorem C12_counterexample :
    ∃ c, create ⟨Real.logb 10, fun x y => x ^ y⟩ .southern_pine 35 15 0.65 = some c ∧
      (0 : ℝ) < 35 ∧ (0 : ℝ) < 15 ∧ (0 : ℝ) < 0.65 ∧ (0.65 : ℝ) < 1 ∧
      0.6 < c.root_swell_height_ := by
  obtain ⟨c, hc, -, hr⟩ := southern_pine_35_15
  refine ⟨c, hc, by norm_num, by norm_num, by norm_num, by norm_num, ?_⟩
  have hp : (0.05059 : ℝ) ^ (0.8 : ℝ) < 0.114 :=
    rpow_lt_of_pow_lt 0.05059 0.114 0.8 4 5 (by norm_num) (by norm_num) (by norm_num)
      (by norm_num) (by norm_num)
  have hpos : (0 : ℝ) < (0.05059 : ℝ) ^ (0.8 : ℝ) := Real.rpow_pos_of_pos (by norm_num) _
  rw [hr, lt_div_iff₀ hpos]
  linarith

/-- C12 (amended): for every Calculator constructed from any species, `height_m > 0`,
`diameter_under_bark_cm > 0` and form factor in `(0, 1)` whose form quotient is at most
`0.9`, the derived `root_swell_height` satisfies `0 < root_swell_height < 0.6 < 1`. -/
theorem C12_root_swell_share_invariant (sp : specie_type_t) (h d f : ℝ) (c : Calculator ℝ)
    (_hh : 0 < h) (_hd : 0 < d) (_hf0 : 0 < f) (_hf1 : f < 1)
    (hc : create ⟨Real.logb 10, fun x y => x ^ y⟩ sp h d f = some c)
    (hq : c.form_quotient_ ≤ 0.9) :
    c.root_swell_height_ =
      RootSwellHeightAsShare ⟨Real.logb 10, fun x y => x ^ y⟩ sp (FormQuotient sp f h d) ∧
    0 < c.root_swell_height_ ∧ c.root_swell_height_ < 0.6 ∧ (0.6 : ℝ) < 1 := by
  obtain ⟨-, -, -, -, h5, -, -, -, h9, -, -⟩ := create_spec _ sp h d f c hc
  obtain ⟨h0, h1⟩ := RootSwellHeightAsShare_bounds sp c.form_quotient_ hq
  rw [← h9] at h0 h1
  refine ⟨by rw [h9, h5], h0, h1, by norm_num⟩

/-- C12 witness: the amended statement at the southern-pine example (form quotient
0.711715). -/
theorem C12_root_swell_share_invariant_witness :
    ∃ c, create ⟨Real.logb 10, fun x y => x ^ y⟩ .southern_pine 20 25 0.5 = some c ∧
      (0 : ℝ) < 20 ∧ (0 : ℝ) < 25 ∧ (0 : ℝ) < 0.5 ∧ (0.5 : ℝ) < 1 ∧
      c.form_quotient_ ≤ 0.9 ∧
      0 < c.root_swell_height_ ∧ c.root_swell_height_ < 0.6 ∧ (0.6 : ℝ) < 1 := by
  obtain ⟨c, hc, -⟩ := southern_pine_20_25
  obtain ⟨-, -, -, -, h5, -⟩ := create_spec _ _ _ _ _ c hc
  have hfq : c.form_quotient_ ≤ 0.9 := by
    rw [h5]
    unfold FormQuotient form_quotient_constants
    norm_num
  exact ⟨c, hc, by norm_num, by norm_num, by norm_num, by norm_num, hfq,
    (C12_root_swell_share_invariant .southern_pine 20 25 0.5 c (by norm_num) (by norm_num)
      (by norm_num) (by norm_num) hc hfq).2⟩

/-! ## C13 — calibration of the scale factor at breast height -/

/-- For the southern-pine example the root swell ends above the breast-height share
`1.3 / 20`. -/
theorem southern_pine_20_25_root_swell_lower (c : Calculator ℝ)
    (hr : c.root_swell_height_ = 0.06873 / (0.288285 : ℝ) ^ (0.8 : ℝ)) :
    0.068 < c.root_swell_height_ := by
  have h1 : (0.288285 : ℝ) ^ (0.8 : ℝ) < 1 :=
    Real.rpow_lt_one (by norm_num) (by norm_num) (by norm_num)
  have h0 : (0 : ℝ) < (0.288285 : ℝ) ^ (0.8 : ℝ) := Real.rpow_pos_of_pos (by norm_num) _
  rw [hr, lt_div_iff₀ h0]
  linarith

/-- C13: for every constructed Calculator with `height_m > 0`, `diameter_under_bark_cm > 0`
and non-zero `quota` whose breast-height share `1.3 / height_m` lies in the bottom region
(below `root_swell_height` and below `0.6`), `calculate_diameter_at_height 1.3` equals
`diameter_under_bark_cm`.  This holds for any `log10`. -/
theorem C13_breast_height_calibration (m : Libm ℝ) (sp : specie_type_t) (h d f : ℝ)
    (c : Calculator ℝ) (hc : create m sp h d f = some c) (hh : 0 < h) (_hd : 0 < d)
    (hquota : c.quota_ ≠ 0) (hs : 1.3 / h < c.root_swell_height_) (hs6 : 1.3 / h < 0.6) :
    c.calculate_diameter_at_height m 1.3 = d := by
  obtain ⟨-, h2, -, -, -, -, h7, h8, -, -, -⟩ := create_spec m sp h d f c hc
  have hs0 : 0 ≤ 1.3 / h := div_nonneg (by norm_num) (le_of_lt hh)
  unfold calculate_diameter_at_height safediv
  rw [h2, if_pos (ne_of_gt hh),
    diameter_bottom m c (1.3 / h) hs0 (by linarith) hs6 hs, h8]
  have harg : (1 : ℝ) + 10000 * (1.3 / h) = 1 + ALFA * 1.3 / h := by
    unfold ALFA
    ring
  rw [harg]
  have hX : 100 - c.k_.q * m.log10 (1 + ALFA * 1.3 / h) ≠ 0 := by
    intro h0
    apply hquota
    rw [h7, h0, zero_div]
  rw [h7]
  generalize m.log10 (1 + ALFA * 1.3 / h) = L at hX
  field_simp

/-- C13 witness: the southern-pine example, whose breast-height share is `0.065`. -/
theorem C13_breast_height_calibration_witness :
    ∃ c, create ⟨Real.logb 10, fun x y => x ^ y⟩ .southern_pine 20 25 0.5 = some c ∧
      (0 : ℝ) < 20 ∧ (0 : ℝ) < 25 ∧ c.quota_ ≠ 0 ∧ 1.3 / 20 < c.root_swell_height_ ∧
      (1.3 / 20 : ℝ) < 0.6 ∧
      c.calculate_diameter_at_height ⟨Real.logb 10, fun x y => x ^ y⟩ 1.3 = 25 := by
  obtain ⟨c, hc, -, -, hq, hi, hr, -, -⟩ := southern_pine_20_25
  obtain ⟨hq1, -, -, -, -⟩ := southern_pine_20_25_bounds c hq hi hr
  have hrl := southern_pine_20_25_root_swell_lower c hr
  have hne : c.quota_ ≠ 0 := by
    apply ne_of_gt
    linarith
  have hs : 1.3 / 20 < c.root_swell_height_ := by
    have e : (1.3 / 20 : ℝ) = 0.065 := by norm_num
    rw [e]
    linarith
  exact ⟨c, hc, by norm_num, by norm_num, hne, hs, by norm_num,
    C13_breast_height_calibration ⟨Real.logb 10, fun x y => x ^ y⟩ .southern_pine 20 25 0.5 c
      hc (by norm_num) (by norm_num) hne hs (by norm_num)⟩

/-! ## C14 — the end-to-end example -/

theorem logb_262_bounds : (0 : ℝ) < Real.logb 10 2.62 ∧ Real.logb 10 2.62 < 0.5 := by
  have h2 := logb_lt_of_pow_lt 2.62 262 100 1 2 (by norm_num) (by norm_num)
    (by norm_num) (by norm_num) (by decide!)
  norm_num at h2 ⊢
  exact ⟨Real.logb_pos (by norm_num) (by norm_num), by linarith⟩

/-- C14: the Calculator constructed with southern pine, 20 m, 25 cm under bark and form
factor 0.5 has form quotient 0.711715, form class 3 and the table row
`(3.240, 1.5290, 13.646, 98.601, 171.700)`; its diameter at height 10 m is strictly less
than at 1.3 m, strictly greater than at 20 m, and strictly less than at 5 m. -/
theorem C14_end_to_end_example :
    ∃ c, create ⟨Real.logb 10, fun x y => x ^ y⟩ .southern_pine 20 25 0.5 = some c ∧
      c.form_quotient_ = 0.711715 ∧ form_class c.form_quotient_ = some 3 ∧
      c.k_ = ⟨3.240, 1.5290, 13.646, 98.601, 171.700⟩ ∧
      c.calculate_diameter_at_height ⟨Real.logb 10, fun x y => x ^ y⟩ 10 <
        c.calculate_diameter_at_height ⟨Real.logb 10, fun x y => x ^ y⟩ 1.3 ∧
      c.calculate_diameter_at_height ⟨Real.logb 10, fun x y => x ^ y⟩ 20 <
        c.calculate_diameter_at_height ⟨Real.logb 10, fun x y => x ^ y⟩ 10 ∧
      c.calculate_diameter_at_height ⟨Real.logb 10, fun x y => x ^ y⟩ 10 <
        c.calculate_diameter_at_height ⟨Real.logb 10, fun x y => x ^ y⟩ 5 := by
  obtain ⟨c, hc, hh, hk, hq, hi, hr, -, -⟩ := southern_pine_20_25
  obtain ⟨-, -, -, -, h5, -⟩ := create_spec _ _ _ _ _ c hc
  obtain ⟨-, -, hinv, hr0, hr1⟩ := southern_pine_20_25_bounds c hq hi hr
  have hrl := southern_pine_20_25_root_swell_lower c hr
  have hfq : c.form_quotient_ = 0.711715 := by
    rw [h5]
    unfold FormQuotient form_quotient_constants
    norm_num
  have hfc : form_class c.form_quotient_ = some 3 := by
    rw [hfq]
    exact form_class_of_bucket _ 4 (by norm_num) (by norm_num) (by norm_num)
  have e10 : (10 / 20 : ℝ) = 0.5 := by norm_num
  have e13 : (1.3 / 20 : ℝ) = 0.065 := by norm_num
  have e20 : (20 / 20 : ℝ) = 1 := by norm_num
  have e5 : (5 / 20 : ℝ) = 0.25 := by norm_num
  have d10 : c.calculate_diameter_at_height ⟨Real.logb 10, fun x y => x ^ y⟩ 10 =
      98.601 * Real.logb 10 2.62 * c.inv_quota_ := by
    unfold calculate_diameter_at_height safediv
    rw [hh, if_pos (by norm_num), e10,
      diameter_middle _ c 0.5 (by norm_num) (by norm_num) (by norm_num) (by linarith), hk]
    have e : (1 + (1 - 0.5) * 3.240 : ℝ) = 2.62 := by norm_num
    simp only [e]
  have d13 : c.calculate_diameter_at_height ⟨Real.logb 10, fun x y => x ^ y⟩ 1.3 =
      (100 - 13.646 * Real.logb 10 651) * c.inv_quota_ := by
    unfold calculate_diameter_at_height safediv
    rw [hh, if_pos (by norm_num), e13,
      diameter_bottom _ c 0.065 (by norm_num) (by norm_num) (by norm_num) (by linarith), hk]
    have e : (1 + 10000 * 0.065 : ℝ) = 651 := by norm_num
    simp only [e]
  have d20 : c.calculate_diameter_at_height ⟨Real.logb 10, fun x y => x ^ y⟩ 20 = 0 := by
    unfold calculate_diameter_at_height safediv
    rw [hh, if_pos (by norm_num), e20]
    exact diameter_at_tip c
  have d5 : c.calculate_diameter_at_height ⟨Real.logb 10, fun x y => x ^ y⟩ 5 =
      98.601 * Real.logb 10 3.43 * c.inv_quota_ := by
    unfold calculate_diameter_at_height safediv
    rw [hh, if_pos (by norm_num), e5,
      diameter_middle _ c 0.25 (by norm_num) (by norm_num) (by norm_num) (by linarith), hk]
    have e : (1 + (1 - 0.25) * 3.240 : ℝ) = 3.43 := by norm_num
    simp only [e]
  obtain ⟨hA0, hA1⟩ := logb_262_bounds
  have hB := logb_651_upper
  have hC : Real.logb 10 2.62 < Real.logb 10 3.43 :=
    Real.logb_lt_logb (by norm_num) (by norm_num) (by norm_num)
  refine ⟨c, hc, hfq, hfc, hk, ?_, ?_, ?_⟩
  · rw [d10, d13]
    apply mul_lt_mul_of_pos_right _ hinv
    linarith
  · rw [d10, d20]
    exact mul_pos (mul_pos (by norm_num) hA0) hinv
  · rw [d10, d5]
    apply mul_lt_mul_of_pos_right _ hinv
    linarith

/-! ## C15 — the stem tip -/

/-- C15: for every Calculator with `height_m ≠ 0` and non-zero `quota`,
`calculate_diameter_at_height height_m` equals
`calculate_diameter_at_height_as_share 1`, and both are `0`. -/
theorem C15_tip_diameter_is_zero (c : Calculator ℝ) (hh : c.height_m_ ≠ 0)
    (_hquota : c.quota_ ≠ 0) :
    c.calculate_diameter_at_height ⟨Real.logb 10, fun x y => x ^ y⟩ c.height_m_ =
      c.calculate_diameter_at_height_as_share ⟨Real.logb 10, fun x y => x ^ y⟩ 1 ∧
    c.calculate_diameter_at_height_as_share ⟨Real.logb 10, fun x y => x ^ y⟩ 1 = 0 := by
  refine ⟨?_, diameter_at_tip c⟩
  unfold calculate_diameter_at_height safediv
  rw [if_pos hh, div_self hh]

/-- C15 witness: the southern-pine example (height 20 m, positive `quota`). -/
theorem C15_tip_diameter_is_zero_witness :
    ∃ c, create ⟨Real.logb 10, fun x y => x ^ y⟩ .southern_pine 20 25 0.5 = some c ∧
      c.height_m_ ≠ 0 ∧ c.quota_ ≠ 0 ∧
      c.calculate_diameter_at_height ⟨Real.logb 10, fun x y => x ^ y⟩ c.height_m_ = 0 := by
  obtain ⟨c, hc, hh, -, hq, hi, hr, -, -⟩ := southern_pine_20_25
  obtain ⟨hq1, -, -, -, -⟩ := southern_pine_20_25_bounds c hq hi hr
  have hne : c.height_m_ ≠ 0 := by
    rw [hh]
    norm_num
  have hqne : c.quota_ ≠ 0 := by
    apply ne_of_gt
    linarith
  have h := C15_tip_diameter_is_zero c hne hqne
  exact ⟨c, hc, hne, hqne, by rw [h.1, h.2]⟩

/-! ## C16 — the form-quotient function -/

/-- C16: for every species, form factor `f`, height `h` and diameter `d`,
`FormQuotient species f h d = a + b * h - c * d + dcoef * f` with the species' row
`(a, b, c, dcoef)` of the form-quotient table; the function is total. -/
theorem C16_form_quotient_formula (f h d : ℝ) :
    FormQuotient .southern_pine f h d = 0.372 + 0.008742 * h - 0.003263 * d + 0.4929 * f ∧
    FormQuotient .northern_pine f h d = 0.293 + 0.006690 * h - 0.001384 * d + 0.6348 * f ∧
    FormQuotient .southern_spruce f h d = 0.209 + 0.008590 * h - 0.003157 * d + 0.7385 * f ∧
    FormQuotient .northern_spruce f h d = 0.239 + 0.010460 * h - 0.004407 * d + 0.6532 * f ∧
    ∀ sp : specie_type_t, form_quotient_constants sp =
      match sp with
      | .southern_pine => ((0.372 : ℝ), (0.008742 : ℝ), (0.003263 : ℝ), (0.4929 : ℝ))
      | .northern_pine => (0.293, 0.006690, 0.001384, 0.6348)
      | .southern_spruce => (0.209, 0.008590, 0.003157, 0.7385)
      | .northern_spruce => (0.239, 0.010460, 0.004407, 0.6532) := by
  refine ⟨rfl, rfl, rfl, rfl, fun sp => ?_⟩
  cases sp <;> rfl

/-! ## C17 — the assertions of the inverse query -/

/-- For the southern-pine example the diameter at the end of the root swell exceeds 20 cm,
so the cached `diameter_at_end_of_root_swell` is at least 19.5 cm. -/
theorem southern_pine_20_25_root (c : Calculator ℝ)
    (hk : c.k_ = ⟨3.240, 1.5290, 13.646, 98.601, 171.700⟩)
    (hq : c.quota_ = (100 - 13.646 * Real.logb 10 651) / 25)
    (hi : c.inv_quota_ = 1 / c.quota_)
    (hr : c.root_swell_height_ = 0.06873 / (0.288285 : ℝ) ^ (0.8 : ℝ))
    (hroot : c.diameter_at_end_of_root_swell_ =
      round (c.calculate_diameter_at_height_as_share ⟨Real.logb 10, fun x y => x ^ y⟩
        c.root_swell_height_)) :
    19.5 < c.diameter_at_end_of_root_swell_ := by
  obtain ⟨hq1, hq2, -, hr0, hr1⟩ := southern_pine_20_25_bounds c hq hi hr
  have hqpos : 0 < c.quota_ := by linarith
  have hE := logb_346_lower
  have hmono : Real.logb 10 3.46 ≤ Real.logb 10 (1 + (1 - c.root_swell_height_) * 3.240) := by
    apply Real.logb_le_logb_of_le (by norm_num) (by norm_num)
    linarith
  have dr : 20 < c.calculate_diameter_at_height_as_share ⟨Real.logb 10, fun x y => x ^ y⟩
      c.root_swell_height_ := by
    rw [diameter_middle _ c _ (le_of_lt hr0) (by linarith) (by linarith) (le_refl _), hk, hi]
    have e : (98.601 * Real.logb 10 (1 + (1 - c.root_swell_height_) * 3.240)) * (1 / c.quota_) =
        98.601 * Real.logb 10 (1 + (1 - c.root_swell_height_) * 3.240) / c.quota_ := by ring
    simp only [e]
    rw [lt_div_iff₀ hqpos]
    linarith
  have hround := abs_sub_round_le (c.calculate_diameter_at_height_as_share
    ⟨Real.logb 10, fun x y => x ^ y⟩ c.root_swell_height_)
  rw [abs_le] at hround
  rw [hroot]
  linarith [hround.2]

/-- C17 (evaluation at the failing input): for southern pine, 20 m, 25 cm, form factor
0.5, the diameter `14.2` cm lies strictly between the cached boundary diameters
(`diameter_at_start_of_top = 14`), so the inverse query evaluates the middle inverse
equation; its unclamped value exceeds `0.6`, so the condition of the assertion
`root_swell_height_ <= andel && andel <= START_OF_TOP_AS_HEIGHT_SHARE` is false. -/
theorem C17_middle_assertion_violated :
    ∃ c, create ⟨Real.logb 10, fun x y => x ^ y⟩ .southern_pine 20 25 0.5 = some c ∧
      (0 : ℝ) < 20 ∧ (0 : ℝ) < 25 ∧ (0 : ℝ) < 0.5 ∧ (0.5 : ℝ) < 1 ∧
      c.diameter_at_start_of_top_ < 14.2 ∧ 14.2 < c.diameter_at_end_of_root_swell_ ∧
      0.6 < 1 - ((10 : ℝ) ^ (14.2 * c.quota_ / c.k_.Q) - 1) / c.k_.beta ∧
      ¬ (c.root_swell_height_ ≤ 1 - ((10 : ℝ) ^ (14.2 * c.quota_ / c.k_.Q) - 1) / c.k_.beta ∧
        1 - ((10 : ℝ) ^ (14.2 * c.quota_ / c.k_.Q) - 1) / c.k_.beta ≤ 0.6) := by
  obtain ⟨c, hc, -, hk, hq, hi, hr, hroot, ht⟩ := southern_pine_20_25
  obtain ⟨hq1, hq2, -, -, -⟩ := southern_pine_20_25_bounds c hq hi hr
  obtain ⟨-, -, htop, -⟩ := southern_pine_20_25_top c hk hq hi hr ht
  have hrt := southern_pine_20_25_root c hk hq hi hr hroot
  have hC := logb_2296_lower
  have hexp : 14.2 * c.quota_ / 98.601 < Real.logb 10 2.296 := by
    rw [div_lt_iff₀ (by norm_num)]
    linarith
  have hpow : (10 : ℝ) ^ (14.2 * c.quota_ / 98.601) < 2.296 := by
    have h1 : (10 : ℝ) ^ (14.2 * c.quota_ / 98.601) < (10 : ℝ) ^ Real.logb 10 2.296 :=
      Real.rpow_lt_rpow_of_exponent_lt (by norm_num) hexp
    rwa [Real.rpow_logb (by norm_num) (by norm_num) (by norm_num)] at h1
  have hover : 0.6 < 1 - ((10 : ℝ) ^ (14.2 * c.quota_ / c.k_.Q) - 1) / c.k_.beta := by
    rw [hk]
    have e3 : (1 : ℝ) - ((10 : ℝ) ^ (14.2 * c.quota_ / 98.601) - 1) / 3.240 =
        (4.240 - (10 : ℝ) ^ (14.2 * c.quota_ / 98.601)) / 3.240 := by ring
    simp only [e3]
    rw [lt_div_iff₀ (by norm_num)]
    linarith
  refine ⟨c, hc, by norm_num, by norm_num, by norm_num, by norm_num, ?_, by linarith, hover,
    ?_⟩
  · rw [htop]
    norm_num
  · rintro ⟨-, h2⟩
    linarith

/-! ## C18 — the table lookup stays in bounds -/

theorem clamp_mono {β : Type} [LinearOrder β] (v w lo hi : β) (hvw : v ≤ w) (h : lo ≤ hi) :
    clamp v lo hi ≤ clamp w lo hi := by
  unfold clamp
  by_cases h1 : v < lo
  · rw [if_pos h1]
    by_cases h2 : w < lo
    · rw [if_pos h2]
    · rw [if_neg h2]
      by_cases h3 : hi < w
      · rw [if_pos h3]
        exact h
      · rw [if_neg h3]
        exact not_lt.mp h2
  · have hw : ¬ w < lo := fun hw => h1 (lt_of_le_of_lt hvw hw)
    rw [if_neg h1, if_neg hw]
    by_cases h2 : hi < v
    · rw [if_pos h2, if_pos (lt_of_lt_of_le h2 hvw)]
    · rw [if_neg h2]
      by_cases h3 : hi < w
      · rw [if_pos h3]
        exact not_lt.mp h2
      · rw [if_neg h3]
        exact hvw

/-- The top and middle inverse equations `1 - (10 ^ (d * quota / K) - 1) / g` do not
increase with the diameter when `quota ≥ 0`, `K > 0` and `g > 0`. -/
theorem inverse_upper_antitone (quota K g d1 d2 : ℝ) (hq : 0 ≤ quota) (hK : 0 < K)
    (hg : 0 < g) (hd : d1 ≤ d2) :
    1 - ((10 : ℝ) ^ (d2 * quota / K) - 1) / g ≤ 1 - ((10 : ℝ) ^ (d1 * quota / K) - 1) / g := by
  have hexp : d1 * quota / K ≤ d2 * quota / K :=
    div_le_div_of_nonneg_right (mul_le_mul_of_nonneg_right hd hq) (le_of_lt hK)
  have hpow : (10 : ℝ) ^ (d1 * quota / K) ≤ (10 : ℝ) ^ (d2 * quota / K) :=
    Real.rpow_le_rpow_of_exponent_le (by norm_num) hexp
  have hdiv : ((10 : ℝ) ^ (d1 * quota / K) - 1) / g ≤ ((10 : ℝ) ^ (d2 * quota / K) - 1) / g :=
    div_le_div_of_nonneg_right (by linarith) (le_of_lt hg)
  linarith

/-- The bottom inverse equation `(10 ^ ((100 - d * quota) / q) - 1) / 10000` does not
increase with the diameter when `quota ≥ 0` and `q > 0`. -/
theorem inverse_bottom_antitone (quota q d1 d2 : ℝ) (hq : 0 ≤ quota) (hq0 : 0 < q)
    (hd : d1 ≤ d2) :
    ((10 : ℝ) ^ ((100 - d2 * quota) / q) - 1) * INV_ALFA ≤
      ((10 : ℝ) ^ ((100 - d1 * quota) / q) - 1) * INV_ALFA := by
  have hmul : d1 * quota ≤ d2 * quota := mul_le_mul_of_nonneg_right hd hq
  have hexp : (100 - d2 * quota) / q ≤ (100 - d1 * quota) / q :=
    div_le_div_of_nonneg_right (by linarith) (le_of_lt hq0)
  have hpow : (10 : ℝ) ^ ((100 - d2 * quota) / q) ≤ (10 : ℝ) ^ ((100 - d1 * quota) / q) :=
    Real.rpow_le_rpow_of_exponent_le (by norm_num) hexp
  have hinv : (0 : ℝ) ≤ INV_ALFA := by
    unfold INV_ALFA
    norm_num
  exact mul_le_mul_of_nonneg_right (by linarith) hinv

/-- The inverse query is non-increasing in the diameter for every state with positive
coefficients, non-negative `quota` and `0 ≤ root_swell_height ≤ 0.6`. -/
theorem height_share_antitone (c : Calculator ℝ) (hb : 0 < c.k_.beta) (hg : 0 < c.k_.gamma)
    (hq : 0 < c.k_.q) (hQ : 0 < c.k_.Q) (hR : 0 < c.k_.R) (hquota : 0 ≤ c.quota_)
    (hr0 : 0 ≤ c.root_swell_height_) (hr1 : c.root_swell_height_ ≤ 0.6) (d1 d2 : ℝ)
    (hd : d1 ≤ d2) :
    c.calculate_height_as_share_at_diameter ⟨Real.logb 10, fun x y => x ^ y⟩ d2 ≤
      c.calculate_height_as_share_at_diameter ⟨Real.logb 10, fun x y => x ^ y⟩ d1 := by
  obtain ⟨a1, b1, c1⟩ := height_share_in_region ⟨Real.logb 10, fun x y => x ^ y⟩ c hr0 hr1 d1
  obtain ⟨a2, b2, c2⟩ := height_share_in_region ⟨Real.logb 10, fun x y => x ^ y⟩ c hr0 hr1 d2
  have h06 : (0.6 : ℝ) ≤ 1 := by norm_num
  rcases le_or_lt d1 c.diameter_at_start_of_top_ with hA1 | hA1
  · -- the first diameter is in the top region
    rcases le_or_lt d2 c.diameter_at_start_of_top_ with hA2 | hA2
    · rcases eq_or_lt_of_le hA2 with he2 | hl2
      · have hv : c.calculate_height_as_share_at_diameter ⟨Real.logb 10, fun x y => x ^ y⟩ d2 =
            0.6 := by
          unfold calculate_height_as_share_at_diameter START_OF_TOP_AS_HEIGHT_SHARE
          rw [if_pos hA2, if_pos he2]
        rw [hv]
        exact (a1 hA1).1
      · have hl1 : d1 < c.diameter_at_start_of_top_ := lt_of_le_of_lt hd hl2
        unfold calculate_height_as_share_at_diameter START_OF_TOP_AS_HEIGHT_SHARE
        rw [if_pos hA2, if_neg (ne_of_lt hl2), if_pos hA1, if_neg (ne_of_lt hl1)]
        exact clamp_mono _ _ _ _ (inverse_upper_antitone _ _ _ _ _ hquota hR hg hd) h06
    · have h1 := (a1 hA1).1
      rcases le_or_lt d2 c.diameter_at_end_of_root_swell_ with hB2 | hB2
      · have h2 := (b2 hA2 hB2).2
        linarith
      · have h2 := (c2 hA2 hB2).2
        linarith
  · have hA2 : c.diameter_at_start_of_top_ < d2 := lt_of_lt_of_le hA1 hd
    rcases le_or_lt d1 c.diameter_at_end_of_root_swell_ with hB1 | hB1
    · -- the first diameter is in the middle region
      rcases le_or_lt d2 c.diameter_at_end_of_root_swell_ with hB2 | hB2
      · rcases eq_or_lt_of_le hB2 with he2 | hl2
        · have hv : c.calculate_height_as_share_at_diameter
              ⟨Real.logb 10, fun x y => x ^ y⟩ d2 = c.root_swell_height_ := by
            unfold calculate_height_as_share_at_diameter
            rw [if_neg (not_le.mpr hA2), if_pos hB2, if_pos he2]
          rw [hv]
          exact (b1 hA1 hB1).1
        · have hl1 : d1 < c.diameter_at_end_of_root_swell_ := lt_of_le_of_lt hd hl2
          unfold calculate_height_as_share_at_diameter START_OF_TOP_AS_HEIGHT_SHARE
          rw [if_neg (not_le.mpr hA2), if_pos hB2, if_neg (ne_of_lt hl2),
            if_neg (not_le.mpr hA1), if_pos hB1, if_neg (ne_of_lt hl1)]
          exact clamp_mono _ _ _ _ (inverse_upper_antitone _ _ _ _ _ hquota hQ hb hd) hr1
      · have h1 := (b1 hA1 hB1).1
        have h2 := (c2 hA2 hB2).2
        linarith
    · -- the first diameter is in the bottom region
      have hB2 : c.diameter_at_end_of_root_swell_ < d2 := lt_of_lt_of_le hB1 hd
      unfold calculate_height_as_share_at_diameter
      rw [if_neg (not_le.mpr hA2), if_neg (not_le.mpr hB2), if_neg (not_le.mpr hA1),
        if_neg (not_le.mpr hB1)]
      exact clamp_mono _ _ _ _ (inverse_bottom_antitone _ _ _ _ hquota hq hd) hr0

/-- C19: for every Calculator whose coefficients `k` are a row of the stem-form table,
with `quota > 0`, `0 ≤ root_swell_height ≤ 0.6` and
`diameter_at_start_of_top ≤ diameter_at_end_of_root_swell`, and for all diameters
`d1 ≤ d2`, `calculate_height_as_share_at_diameter d2 ≤
calculate_height_as_share_at_diameter d1`. -/
theorem C19_inverse_query_antitone (c : Calculator ℝ)
    (hk : c.k_ ∈ (stem_form_constants : List (stem_form_constants_t ℝ)))
    (hquota : 0 < c.quota_) (hr0 : 0 ≤ c.root_swell_height_)
    (hr1 : c.root_swell_height_ ≤ 0.6)
    (_hd : c.diameter_at_start_of_top_ ≤ c.diameter_at_end_of_root_swell_) (d1 d2 : ℝ)
    (h12 : d1 ≤ d2) :
    c.calculate_height_as_share_at_diameter ⟨Real.logb 10, fun x y => x ^ y⟩ d2 ≤
      c.calculate_height_as_share_at_diameter ⟨Real.logb 10, fun x y => x ^ y⟩ d1 := by
  obtain ⟨hb, hg, hq, hQ, hR⟩ := stem_form_constants_pos c.k_ hk
  exact height_share_antitone c hb hg hq hQ hR (le_of_lt hquota) hr0 hr1 d1 d2 h12

/-- C19 witness: the southern-pine example with the diameters 10 cm and 20 cm. -/
theorem C19_inverse_query_antitone_witness :
    ∃ c, create ⟨Real.logb 10, fun x y => x ^ y⟩ .southern_pine 20 25 0.5 = some c ∧
      c.k_ ∈ (stem_form_constants : List (stem_form_constants_t ℝ)) ∧
      0 < c.quota_ ∧ 0 ≤ c.root_swell_height_ ∧ c.root_swell_height_ ≤ 0.6 ∧
      c.diameter_at_start_of_top_ ≤ c.diameter_at_end_of_root_swell_ ∧ (10 : ℝ) ≤ 20 ∧
      c.calculate_height_as_share_at_diameter ⟨Real.logb 10, fun x y => x ^ y⟩ 20 ≤
        c.calculate_height_as_share_at_diameter ⟨Real.logb 10, fun x y => x ^ y⟩ 10 := by
  obtain ⟨c, hc, -, hk, hq, hi, hr, hroot, ht⟩ := southern_pine_20_25
  obtain ⟨-, -, -, -, -, h6, -⟩ := create_spec _ _ _ _ _ c hc
  obtain ⟨hq1, -, -, hr0, hr1⟩ := southern_pine_20_25_bounds c hq hi hr
  obtain ⟨h1, h2, -⟩ := southern_pine_20_25_overshoot c hk hq hi hr hroot ht
  have hmem := StemFormConstants_mem _ _ _ h6
  have hpos : 0 < c.quota_ := by linarith
  have hr6 : c.root_swell_height_ ≤ 0.6 := by linarith
  have hdd : c.diameter_at_start_of_top_ ≤ c.diameter_at_end_of_root_swell_ :=
    le_of_lt (lt_trans h1 h2)
  exact ⟨c, hc, hmem, hpos, le_of_lt hr0, hr6, hdd, by norm_num,
    C19_inverse_query_antitone c hmem hpos (le_of_lt hr0) hr6 hdd 10 20 (by norm_num)⟩

/-! ## C20 — predicted diameters are not negative -/

/-- The coefficient `q` of every table row is at most `16.104`. -/
theorem stem_form_constants_q_le (k : stem_form_constants_t ℝ)
    (hk : k ∈ (stem_form_constants : List (stem_form_constants_t ℝ))) : k.q ≤ 16.104 := by
  simp only [stem_form_constants, List.mem_cons, List.mem_singleton, List.not_mem_nil,
    or_false] at hk
  rcases hk with h | h | h | h | h | h | h | h | h | h | h | h | h | h | h | h | h | h | h |
    h | h | h | h | h | h | h | h | h <;> subst h <;> norm_num

theorem logb_10001_upper : Real.logb 10 10001 < (4.1 : ℝ) := by
  have h := logb_lt_of_pow_lt 10001 10001 1 41 10 (by norm_num) (by norm_num)
    (by norm_num) (by norm_num) (by decide!)
  norm_num at h ⊢
  linarith

/-- For a table row `k` and an argument `1 ≤ x ≤ 10001` the bottom expression
`100 - k.q * log10 x` is positive. -/
theorem bottom_expression_pos (k : stem_form_constants_t ℝ)
    (hk : k ∈ (stem_form_constants : List (stem_form_constants_t ℝ))) (x : ℝ) (h1 : 1 ≤ x)
    (h2 : x ≤ 10001) : 0 < 100 - k.q * Real.logb 10 x := by
  obtain ⟨-, -, hq0, -, -⟩ := stem_form_constants_pos k hk
  have hq1 := stem_form_constants_q_le k hk
  have hL0 : 0 ≤ Real.logb 10 x := Real.logb_nonneg (by norm_num) h1
  have hL1 : Real.logb 10 x ≤ Real.logb 10 10001 :=
    Real.logb_le_logb_of_le (by norm_num) (by linarith) h2
  have hU := logb_10001_upper
  have hprod : k.q * Real.logb 10 x ≤ 16.104 * 4.1 :=
    mul_le_mul hq1 (by linarith) hL0 (by norm_num)
  linarith

/-- C20: for every Calculator whose coefficients `k` are a row of the stem-form table and
whose `inv_quota` is the reciprocal of `quota` (any `root_swell_height`), (i) if
`quota > 0` then `calculate_diameter_at_height_as_share s ≥ 0` for every share `s` in
`[0, 1]`; (ii) for every one of the 28 table rows the bottom expression
`100 - k.q * log10 (1 + 10000 * s)` is positive on `[0, 1]`; and (iii) if the Calculator
was constructed with `height_m ≥ 1.3` and `diameter_under_bark_cm > 0` then `quota > 0`. -/
theorem C20_diameters_nonnegative (c : Calculator ℝ)
    (hk : c.k_ ∈ (stem_form_constants : List (stem_form_constants_t ℝ)))
    (hi : c.inv_quota_ = 1 / c.quota_) :
    (0 < c.quota_ → ∀ s : ℝ, 0 ≤ s → s ≤ 1 →
      0 ≤ c.calculate_diameter_at_height_as_share ⟨Real.logb 10, fun x y => x ^ y⟩ s) ∧
    (∀ k ∈ (stem_form_constants : List (stem_form_constants_t ℝ)), ∀ s : ℝ, 0 ≤ s → s ≤ 1 →
      0 < 100 - k.q * Real.logb 10 (1 + 10000 * s)) ∧
    (∀ (sp : specie_type_t) (h d f : ℝ),
      create ⟨Real.logb 10, fun x y => x ^ y⟩ sp h d f = some c → 1.3 ≤ h → 0 < d →
        0 < c.quota_) := by
  obtain ⟨hb, hg, hq, hQ, hR⟩ := stem_form_constants_pos c.k_ hk
  have hbot : ∀ k ∈ (stem_form_constants : List (stem_form_constants_t ℝ)), ∀ s : ℝ,
      0 ≤ s → s ≤ 1 → 0 < 100 - k.q * Real.logb 10 (1 + 10000 * s) := by
    intro k hmem s hs0 hs1
    exact bottom_expression_pos k hmem _ (by linarith) (by linarith)
  refine ⟨?_, hbot, ?_⟩
  · intro hquota s hs0 hs1
    have hinv : 0 < c.inv_quota_ := by
      rw [hi]
      exact one_div_pos.mpr hquota
    rcases le_or_lt 0.6 s with ht | ht
    · rw [diameter_top _ c s hs0 hs1 ht]
      have harg : 1 ≤ 1 + (1 - s) * c.k_.gamma := by
        have := mul_nonneg (by linarith : (0 : ℝ) ≤ 1 - s) (le_of_lt hg)
        linarith
      exact mul_nonneg (mul_nonneg (le_of_lt hR) (Real.logb_nonneg (by norm_num) harg))
        (le_of_lt hinv)
    · rcases le_or_lt c.root_swell_height_ s with hr | hr
      · rw [diameter_middle _ c s hs0 hs1 ht hr]
        have harg : 1 ≤ 1 + (1 - s) * c.k_.beta := by
          have := mul_nonneg (by linarith : (0 : ℝ) ≤ 1 - s) (le_of_lt hb)
          linarith
        exact mul_nonneg (mul_nonneg (le_of_lt hQ) (Real.logb_nonneg (by norm_num) harg))
          (le_of_lt hinv)
      · rw [diameter_bottom _ c s hs0 hs1 ht hr]
        exact mul_nonneg (le_of_lt (hbot c.k_ hk s hs0 hs1)) (le_of_lt hinv)
  · intro sp h d f hc hh hd
    obtain ⟨-, -, -, -, -, -, h7, -, -, -, -⟩ := create_spec _ sp h d f c hc
    rw [h7]
    apply div_pos _ hd
    have hhpos : (0 : ℝ) < h := by linarith
    have hfrac0 : 0 ≤ ALFA * 1.3 / h := by
      unfold ALFA
      exact div_nonneg (by norm_num) (le_of_lt hhpos)
    have hfrac1 : ALFA * 1.3 / h ≤ 10000 := by
      unfold ALFA
      rw [div_le_iff₀ hhpos]
      linarith
    exact bottom_expression_pos c.k_ hk _ (by linarith) (by linarith)

/-- C20 witness: the southern-pine example (height 20 m, diameter 25 cm) at the share
`0.5`. -/
theorem C20_diameters_nonnegative_witness :
    ∃ c, create ⟨Real.logb 10, fun x y => x ^ y⟩ .southern_pine 20 25 0.5 = some c ∧
      c.k_ ∈ (stem_form_constants : List (stem_form_constants_t ℝ)) ∧
      c.inv_quota_ = 1 / c.quota_ ∧
      (1.3 : ℝ) ≤ 20 ∧ (0 : ℝ) < 25 ∧ 0 < c.quota_ ∧ (0 : ℝ) ≤ 0.5 ∧ (0.5 : ℝ) ≤ 1 ∧
      0 ≤ c.calculate_diameter_at_height_as_share ⟨Real.logb 10, fun x y => x ^ y⟩ 0.5 := by
  obtain ⟨c, hc, -⟩ := southern_pine_20_25
  obtain ⟨-, -, -, -, -, h6, -, h8, -, -, -⟩ := create_spec _ _ _ _ _ c hc
  have hmem := StemFormConstants_mem _ _ _ h6
  have h := C20_diameters_nonnegative c hmem h8
  have hquota : 0 < c.quota_ := h.2.2 .southern_pine 20 25 0.5 hc (by norm_num) (by norm_num)
  exact ⟨c, hc, hmem, h8, by norm_num, by norm_num, hquota, by norm_num, by norm_num,
    h.1 hquota 0.5 (by norm_num) (by norm_num)⟩

end Calculator

end skogrkaupa.forestry.edgren_nylinder
